import Mathlib

/-!
Verification development for the resonance-index scorer.

Texts are modelled as lists of characters; Python float arithmetic is
modelled exactly over the rationals.  Each analyzer module of the source
is embedded as a set of executable definitions translated function by
function, and the claims about the system are settled as theorems below.
-/

set_option maxHeartbeats 1000000

/-- Characters that terminate a sentence, the class used by the
sentence splits of the source. -/
def isTermCh (c : Char) : Bool := c = '.' || c = '!' || c = '?'

/-- Whitespace in the sense of the host language string routines. -/
def pySpace (c : Char) : Bool :=
  c = ' ' || c = '\t' || c = '\n' || c = '\r' || c = Char.ofNat 11 || c = Char.ofNat 12

/-- Word characters, the class that the word-boundary assertion of the
pattern language tests. -/
def isWordCh (c : Char) : Bool := c.isAlphanum || c = '_'

/-- ASCII lower-casing of a text, the model of lower(). -/
def lowerL (s : List Char) : List Char := s.map Char.toLower

/-- Shorthand turning a string literal into a character list. -/
def strL (s : String) : List Char := s.toList

/-- Apostrophe character, written via its code point. -/
def apoCh : Char := Char.ofNat 39

/-- Builds a one-apostrophe word from the part before and after it. -/
def apoStr (a b : String) : List Char := a.toList ++ apoCh :: b.toList

/-- Substring containment, the model of the in operator on texts. -/
def isSubstr (n : List Char) : List Char → Bool
  | [] => n.isEmpty
  | c :: ts => n.isPrefixOf (c :: ts) || isSubstr n ts

/-- Counts non-overlapping occurrences of a literal, the model of
str.count. -/
def countSub (n : List Char) : List Char → ℕ
  | [] => 0
  | c :: ts =>
    if n.isPrefixOf (c :: ts) then 1 + countSub n (List.drop (n.length - 1) ts)
    else countSub n ts
termination_by l => l.length
decreasing_by
  · simp only [List.length_drop, List.length_cons]; omega
  · simp only [List.length_cons]; omega

/-- Drops leading whitespace, the model of lstrip(). -/
def pyStripL (s : List Char) : List Char := s.dropWhile pySpace

/-- Strips whitespace from both ends, the model of strip(). -/
def pyStrip (s : List Char) : List Char :=
  ((s.dropWhile pySpace).reverse.dropWhile pySpace).reverse

theorem length_dropWhile_le (p : Char → Bool) : ∀ l : List Char, (l.dropWhile p).length ≤ l.length := by
  intro l
  induction l with
  | nil => simp [List.dropWhile]
  | cons c cs ih =>
    by_cases h : p c
    · simp [List.dropWhile, h]; omega
    · simp [List.dropWhile, h]

/-- Splits a text at each maximal run of characters satisfying the
predicate, the model of re.split on a one-or-more character class.  The
boolean flag records whether a separator run is currently open. -/
def splitRunsGo (p : Char → Bool) : List Char → List Char → Bool → List (List Char)
  | [], acc, _ => [acc.reverse]
  | c :: cs, acc, inSep =>
    if p c then
      if inSep then splitRunsGo p cs [] true
      else acc.reverse :: splitRunsGo p cs [] true
    else splitRunsGo p cs (c :: acc) false

/-- Splits on maximal separator runs; see splitRunsGo. -/
def splitRuns (p : Char → Bool) (l : List Char) : List (List Char) :=
  splitRunsGo p l [] false

/-- Splits a text into its maximal runs of non-whitespace characters,
the model of split() with no separator. -/
def pySplitWs (s : List Char) : List (List Char) :=
  (splitRuns pySpace s).filter (fun w => ¬ w.isEmpty)

/-- Number of whitespace-separated words, the model of len(split()). -/
def wordCountL (s : List Char) : ℕ := (pySplitWs s).length

/-- Fuel-indexed body of the scan counter; the fuel dominates the
suffix length, so the zero-fuel branch is never taken by the wrapper
below. -/
def scanCountF (m : Option Char → List Char → Option ℕ) : ℕ → Option Char → List Char → ℕ
  | 0, _, _ => 0
  | _ + 1, _, [] => 0
  | fuel + 1, prev, c :: cs =>
    match m prev (c :: cs) with
    | some k => 1 + scanCountF m fuel ((c :: cs).get? (k - 1)) (List.drop (k - 1) cs)
    | none => scanCountF m fuel (some c) cs

/-- Generic non-overlapping scan counter.  The matcher receives the
character just before the current position (none at the start) together
with the current suffix, and answers the length of a match starting
here, if any; after a match the scan resumes past it, as findall does. -/
def scanCount (m : Option Char → List Char → Option ℕ) (prev : Option Char)
    (l : List Char) : ℕ :=
  scanCountF m l.length prev l

/-- Word-character status of an optional character; absent counts as a
non-word position, as at the ends of the subject. -/
def isWordO : Option Char → Bool
  | none => false
  | some c => isWordCh c

/-- Matcher for a word-bounded literal keyword: the keyword must occur
here and a word boundary must hold on each side. -/
def wbWordM (w : List Char) (prev : Option Char) (s : List Char) : Option ℕ :=
  if w.isPrefixOf s ∧ (isWordO prev ≠ isWordO w.head?) ∧
      (isWordO (w.getLast?) ≠ isWordO ((s.drop w.length).head?)) then some w.length
  else none

/-- Whether a word-bounded occurrence of the keyword exists in the
subject, the model of re.search on an escaped keyword between word
boundaries. -/
def wbContains (w : List Char) (s : List Char) : Bool :=
  0 < scanCount (wbWordM w) none s

/-- Number of characters equal to the given one. -/
def countCh (c : Char) (s : List Char) : ℕ := s.countP (fun d => d = c)

/-- Maximum of a list of naturals seeded by its head; zero on the empty
list, which every caller guards against. -/
def listMaxN : List ℕ → ℕ
  | [] => 0
  | x :: xs => xs.foldl max x

/-- Minimum of a list of naturals seeded by its head. -/
def listMinN : List ℕ → ℕ
  | [] => 0
  | x :: xs => xs.foldl min x

/-- First-maximum selection over keyed scores: later entries replace the
current best only when strictly greater, as max does on items. -/
def argmaxFirst {α : Type} [LinearOrder α] : ℕ × α → List (ℕ × α) → ℕ
  | best, [] => best.1
  | best, x :: xs => if best.2 < x.2 then argmaxFirst x xs else argmaxFirst best xs

theorem argmaxFirst_bounds {α : Type} [LinearOrder α] (lo hi : ℕ) :
    ∀ (l : List (ℕ × α)) (best : ℕ × α), lo ≤ best.1 → best.1 ≤ hi →
    (∀ x ∈ l, lo ≤ x.1 ∧ x.1 ≤ hi) →
    lo ≤ argmaxFirst best l ∧ argmaxFirst best l ≤ hi := by
  intro l
  induction l with
  | nil => intro best h1 h2 _; exact ⟨h1, h2⟩
  | cons x xs ih =>
    intro best h1 h2 hall
    simp only [argmaxFirst]
    by_cases hlt : best.2 < x.2
    · simp only [hlt, if_true]
      exact ih x (hall x (List.mem_cons_self x xs)).1 (hall x (List.mem_cons_self x xs)).2
        (fun y hy => hall y (List.mem_cons_of_mem x hy))
    · simp only [hlt, if_false]
      exact ih best h1 h2 (fun y hy => hall y (List.mem_cons_of_mem x hy))

namespace IAI

/-- Keyword table of the context-completeness rule. -/
def contextKeywords : List (List Char) :=
  ["for", "about", "context", "because", "since", "given"].map String.toList

/-- Concrete-language keywords of the specificity rule. -/
def concreteWords : List (List Char) :=
  ["specific", "exact", "precise", "concrete", "detailed"].map String.toList

/-- Measurable-parameter keywords of the specificity rule. -/
def paramWords : List (List Char) :=
  ["number", "count", "length", "size", "time", "budget"].map String.toList

/-- Organizer keywords of the structure rule. -/
def organizerWords : List (List Char) :=
  ["first", "second", "then", "finally", "step"].map String.toList

/-- Clarity-indicator keywords of the tone rule. -/
def clarityWords : List (List Char) :=
  ["please", "clearly", "specifically"].map String.toList

/-- Context-completeness component: keyword hits over three, capped. -/
def scoreContext (p : List Char) : ℚ :=
  min ((contextKeywords.countP (fun k => isSubstr k (lowerL p)) : ℚ) / 3) 1

/-- Specificity component: weighted blend of concrete-language and
parameter keyword hits, normalized by five, capped. -/
def scoreSpecificity (p : List Char) : ℚ :=
  min (((concreteWords.countP (fun k => isSubstr k (lowerL p)) : ℚ) * 0.7 +
        (paramWords.countP (fun k => isSubstr k (lowerL p)) : ℚ) * 0.3) / 5) 1

/-- Language-quality component: average words per sentence bucketed
into four readability tiers. -/
def scoreLanguage (sentCount wc : ℕ) : ℚ :=
  if wc = 0 then 0
  else if (wc : ℚ) / ((max sentCount 1 : ℕ) : ℚ) < 5 then 0.3
  else if (wc : ℚ) / ((max sentCount 1 : ℕ) : ℚ) ≤ 20 then 0.8
  else if (wc : ℚ) / ((max sentCount 1 : ℕ) : ℚ) ≤ 30 then 0.5
  else 0.2

/-- Structure component: organizer hits over three capped at 0.8 plus a
flat bonus for a question mark, capped at one. -/
def scoreStructure (p : List Char) : ℚ :=
  min (min ((organizerWords.countP (fun k => isSubstr k (lowerL p)) : ℚ) / 3) 0.8 +
       (if isSubstr (strL "?") p then (0.2 : ℚ) else 0)) 1

/-- Sufficiency component: piecewise function of the word count. -/
def scoreSufficiency (wc : ℕ) : ℚ :=
  if wc < 5 then 0.1
  else if wc < 20 then 0.3 + ((wc : ℚ) / 20) * 0.3
  else if wc ≤ 150 then 0.6 + (((wc : ℚ) - 20) / 130) * 0.3
  else 0.9

/-- Tone component: base 0.6 plus a capped clarity bonus. -/
def scoreTone (p : List Char) : ℚ :=
  min (0.6 + min ((clarityWords.countP (fun k => isSubstr k (lowerL p)) : ℚ) * 0.2) 0.4) 1

/-- Sentence count of a prompt: non-blank pieces of the terminator
split. -/
def sentCountOf (p : List Char) : ℕ :=
  (splitRuns isTermCh p).countP (fun s => ¬ (pyStrip s).isEmpty)

/-- Input-alignment score: weighted sum of the six components, capped
at one. -/
def iaiScore (p : List Char) : ℚ :=
  min (scoreContext p * 0.2 + scoreSpecificity p * 0.25 +
       scoreLanguage (sentCountOf p) (wordCountL p) * 0.2 +
       scoreStructure p * 0.15 + scoreSufficiency (wordCountL p) * 0.1 +
       scoreTone p * 0.1) 1

theorem scoreContext_bounds (p : List Char) : 0 ≤ scoreContext p ∧ scoreContext p ≤ 1 := by
  unfold scoreContext
  constructor
  · exact le_min (by positivity) (by norm_num)
  · exact min_le_right _ _

theorem scoreSpecificity_bounds (p : List Char) :
    0 ≤ scoreSpecificity p ∧ scoreSpecificity p ≤ 1 := by
  unfold scoreSpecificity
  constructor
  · exact le_min (by positivity) (by norm_num)
  · exact min_le_right _ _

theorem scoreLanguage_bounds (sc wc : ℕ) :
    0 ≤ scoreLanguage sc wc ∧ scoreLanguage sc wc ≤ 1 := by
  unfold scoreLanguage
  split_ifs <;> norm_num

theorem scoreStructure_bounds (p : List Char) :
    0 ≤ scoreStructure p ∧ scoreStructure p ≤ 1 := by
  unfold scoreStructure
  constructor
  · refine le_min (add_nonneg (le_min (by positivity) (by norm_num)) ?_) (by norm_num)
    split_ifs <;> norm_num
  · exact min_le_right _ _

theorem scoreSufficiency_bounds (wc : ℕ) :
    0 ≤ scoreSufficiency wc ∧ scoreSufficiency wc ≤ 1 := by
  unfold scoreSufficiency
  split_ifs with h1 h2 h3
  · norm_num
  · have hc : (wc : ℚ) < 20 := by exact_mod_cast h2
    have hc0 : (0 : ℚ) ≤ (wc : ℚ) := by positivity
    constructor <;> nlinarith
  · have hlo : (20 : ℚ) ≤ (wc : ℚ) := by exact_mod_cast Nat.le_of_not_lt h2
    have hhi : (wc : ℚ) ≤ 150 := by exact_mod_cast h3
    constructor <;> nlinarith
  · norm_num

theorem scoreTone_bounds (p : List Char) : 0 ≤ scoreTone p ∧ scoreTone p ≤ 1 := by
  unfold scoreTone
  constructor
  · exact le_min (by positivity) (by norm_num)
  · exact min_le_right _ _

theorem iaiScore_bounds (p : List Char) : 0 ≤ iaiScore p ∧ iaiScore p ≤ 1 := by
  unfold iaiScore
  obtain ⟨c0, c1⟩ := scoreContext_bounds p
  obtain ⟨s0, s1⟩ := scoreSpecificity_bounds p
  obtain ⟨l0, l1⟩ := scoreLanguage_bounds (sentCountOf p) (wordCountL p)
  obtain ⟨t0, t1⟩ := scoreStructure_bounds p
  obtain ⟨f0, f1⟩ := scoreSufficiency_bounds (wordCountL p)
  obtain ⟨n0, n1⟩ := scoreTone_bounds p
  constructor
  · exact le_min (by nlinarith) (by norm_num)
  · exact min_le_right _ _

end IAI

namespace PAS

/-- Matcher for one-or-more digits followed by a dot at the head of the
suffix; answers the match length.  Backtracking on a greedy digit run
succeeds exactly when the character after the maximal run is the dot. -/
def numDotM (s : List Char) : Option ℕ :=
  if 0 < (s.takeWhile Char.isDigit).length ∧
      (s.drop (s.takeWhile Char.isDigit).length).head? = some '.' then
    some ((s.takeWhile Char.isDigit).length + 1)
  else none

/-- Matcher for a newline, digits, dot sequence. -/
def nlNumDotM (_ : Option Char) (s : List Char) : Option ℕ :=
  match s with
  | '\n' :: rest => (numDotM rest).map (· + 1)
  | _ => none

/-- Matcher for a maximal run of at least two newlines, the separator
of the paragraph split. -/
def dblNlM (_ : Option Char) (s : List Char) : Option ℕ :=
  match s with
  | '\n' :: '\n' :: rest => some (2 + (rest.takeWhile (fun c => c = '\n')).length)
  | _ => none

/-- Number of pieces of the paragraph split: separator matches plus
one. -/
def paragraphCount (t : List Char) : ℕ := 1 + scanCount dblNlM none t

/-- Sequencing words of the chunking rule. -/
def sequencingWords : List (List Char) :=
  ["first", "next", "then", "finally", "step", "phase"].map String.toList

/-- Chunking component: paragraph bonus, sequencing-word credit and
list-marker credit, capped at one. -/
def chunkingScore (t : List Char) : ℚ :=
  min ((if 1 < paragraphCount t then (0.3 : ℚ) else 0) +
       min ((sequencingWords.countP (fun w => isSubstr w (lowerL t)) : ℚ) * 0.15) 0.3 +
       min (((countSub (strL "\n- ") t + countSub (strL "\n* ") t +
              scanCount nlNumDotM none t : ℕ) : ℚ) * 0.1) 0.4) 1

/-- Whether some character beginning a line is a hash mark. -/
def hasHashHeading (t : List Char) : Bool :=
  0 < scanCount (fun prev s =>
    if (prev = none ∨ prev = some '\n') ∧ s.head? = some '#' then some 1 else none) none t

/-- Whether a colon appears before any sentence terminator. -/
def colonBeforeTerm : List Char → Bool
  | [] => false
  | c :: cs => if c = ':' then true else if isTermCh c then false else colonBeforeTerm cs

/-- Whether some line starts with an upper-case letter followed, within
non-terminator characters, by a colon. -/
def hasUpperColonHeading (t : List Char) : Bool :=
  0 < scanCount (fun prev s =>
    match s with
    | c :: cs =>
      if (prev = none ∨ prev = some '\n') ∧ c.isUpper ∧ colonBeforeTerm cs then some 1
      else none
    | [] => none) none t

/-- Matcher of the alternation of the three list markers used by the
structure rule. -/
def listAltM (prev : Option Char) (s : List Char) : Option ℕ :=
  match nlNumDotM prev s with
  | some k => some k
  | none =>
    if (strL "\n- ").isPrefixOf s then some 3
    else if (strL "\n* ").isPrefixOf s then some 3
    else none

/-- Labeled structural elements looked up in the lowered text. -/
def structuralElements : List (List Char) :=
  ["table:", "chart:", "diagram:", "summary:"].map String.toList

/-- Structure component: heading bonus, list-marker tier and labeled
element bonus, capped at one. -/
def structureScore (t : List Char) : ℚ :=
  min ((if hasHashHeading t || hasUpperColonHeading t then (0.4 : ℚ) else 0) +
       (if 2 ≤ scanCount listAltM none t then (0.4 : ℚ)
        else if scanCount listAltM none t = 1 then 0.2 else 0) +
       (if structuralElements.any (fun e => isSubstr e (lowerL t)) then (0.2 : ℚ) else 0)) 1

/-- Collaborative phrases of the collaboration rule. -/
def collabPhrases : List (List Char) :=
  [apoStr "let" "s", strL "we can", strL "we should", strL "our", strL "together",
   strL "collaborate", strL "what do you think", strL "how about", strL "your thoughts",
   strL "partner", strL "does this make sense", strL "shall we", strL "would you like",
   strL "build with"]

/-- Collaboration component: discrete map of the phrase count. -/
def collaborationScore (t : List Char) : ℚ :=
  if 3 ≤ collabPhrases.countP (fun ph => isSubstr ph (lowerL t)) then 1.0
  else if collabPhrases.countP (fun ph => isSubstr ph (lowerL t)) = 2 then 0.7
  else if collabPhrases.countP (fun ph => isSubstr ph (lowerL t)) = 1 then 0.4
  else 0.1

/-- Pause indicators of the rhythm rule, counted on the raw text. -/
def pauseIndicators : List (List Char) :=
  [strL "...", strL "—", strL "briefly", strL "in summary", strL "to recap"]

/-- Sentence-length variation bonus of the rhythm rule. -/
def rhythmVariationBonus (t : List Char) : ℚ :=
  if 3 ≤ (splitRuns isTermCh t).length then
    (if ¬ (((splitRuns isTermCh t).map pyStrip).filter (fun s => ¬ s.isEmpty)).isEmpty then
      (if 0 < listMinN ((((splitRuns isTermCh t).map pyStrip).filter
            (fun s => ¬ s.isEmpty)).map List.length) then
        (if 2 ≤ ((listMaxN ((((splitRuns isTermCh t).map pyStrip).filter
                 (fun s => ¬ s.isEmpty)).map List.length) : ℚ) /
                (listMinN ((((splitRuns isTermCh t).map pyStrip).filter
                 (fun s => ¬ s.isEmpty)).map List.length) : ℚ)) ∧
            ((listMaxN ((((splitRuns isTermCh t).map pyStrip).filter
                 (fun s => ¬ s.isEmpty)).map List.length) : ℚ) /
                (listMinN ((((splitRuns isTermCh t).map pyStrip).filter
                 (fun s => ¬ s.isEmpty)).map List.length) : ℚ)) ≤ 5 then (0.3 : ℚ)
         else 0)
       else if (2 : ℚ) ≤ 1 ∧ (1 : ℚ) ≤ 5 then 0.3 else 0)
     else 0)
  else 0

/-- Rhythm component: question credit, pause credit and variation
bonus, capped at one. -/
def rhythmScore (t : List Char) : ℚ :=
  min (min ((countCh '?' t : ℚ) * 0.2) 0.4 +
       min (((pauseIndicators.map (fun i => countSub i t)).sum : ℚ) * 0.15) 0.3 +
       rhythmVariationBonus t) 1

/-- Process-alignment score: weighted sum of the four components. -/
def pasScore (t : List Char) : ℚ :=
  chunkingScore t * 0.30 + structureScore t * 0.25 +
  collaborationScore t * 0.25 + rhythmScore t * 0.20

theorem chunkingScore_bounds (t : List Char) :
    0 ≤ chunkingScore t ∧ chunkingScore t ≤ 1 := by
  unfold chunkingScore
  refine ⟨le_min ?_ (by norm_num), min_le_right _ _⟩
  have h1 : (0 : ℚ) ≤ (if 1 < paragraphCount t then (0.3 : ℚ) else 0) := by
    split_ifs <;> norm_num
  have h2 : (0 : ℚ) ≤ min ((sequencingWords.countP (fun w => isSubstr w (lowerL t)) : ℚ) * 0.15) 0.3 :=
    le_min (by positivity) (by norm_num)
  have h3 : (0 : ℚ) ≤ min (((countSub (strL "\n- ") t + countSub (strL "\n* ") t +
       scanCount nlNumDotM none t : ℕ) : ℚ) * 0.1) 0.4 :=
    le_min (by positivity) (by norm_num)
  linarith

theorem structureScore_bounds (t : List Char) :
    0 ≤ structureScore t ∧ structureScore t ≤ 1 := by
  unfold structureScore
  refine ⟨le_min ?_ (by norm_num), min_le_right _ _⟩
  have h1 : (0 : ℚ) ≤ (if hasHashHeading t || hasUpperColonHeading t then (0.4 : ℚ) else 0) := by
    split_ifs <;> norm_num
  have h2 : (0 : ℚ) ≤ (if 2 ≤ scanCount listAltM none t then (0.4 : ℚ)
      else if scanCount listAltM none t = 1 then 0.2 else 0) := by
    split_ifs <;> norm_num
  have h3 : (0 : ℚ) ≤ (if structuralElements.any (fun e => isSubstr e (lowerL t)) then (0.2 : ℚ) else 0) := by
    split_ifs <;> norm_num
  linarith

theorem collaborationScore_bounds (t : List Char) :
    0 ≤ collaborationScore t ∧ collaborationScore t ≤ 1 := by
  unfold collaborationScore
  split_ifs <;> norm_num

theorem rhythmVariationBonus_bounds (t : List Char) :
    0 ≤ rhythmVariationBonus t ∧ rhythmVariationBonus t ≤ 0.3 := by
  unfold rhythmVariationBonus
  split_ifs <;> norm_num

theorem rhythmScore_bounds (t : List Char) : 0 ≤ rhythmScore t ∧ rhythmScore t ≤ 1 := by
  unfold rhythmScore
  obtain ⟨v0, _⟩ := rhythmVariationBonus_bounds t
  refine ⟨le_min ?_ (by norm_num), min_le_right _ _⟩
  have h1 : (0 : ℚ) ≤ min ((countCh '?' t : ℚ) * 0.2) 0.4 := le_min (by positivity) (by norm_num)
  have h2 : (0 : ℚ) ≤ min (((pauseIndicators.map (fun i => countSub i t)).sum : ℚ) * 0.15) 0.3 :=
    le_min (by positivity) (by norm_num)
  linarith

theorem pasScore_bounds (t : List Char) : 0 ≤ pasScore t ∧ pasScore t ≤ 1 := by
  unfold pasScore
  obtain ⟨a0, a1⟩ := chunkingScore_bounds t
  obtain ⟨b0, b1⟩ := structureScore_bounds t
  obtain ⟨c0, c1⟩ := collaborationScore_bounds t
  obtain ⟨d0, d1⟩ := rhythmScore_bounds t
  constructor <;> nlinarith

end PAS

namespace SAS

/-- Matcher for the first word of a word-bounded alternation that
matches at the current position. -/
def wbAltM (ws : List (List Char)) (prev : Option Char) (s : List Char) : Option ℕ :=
  ws.findSome? (fun w => wbWordM w prev s)

/-- Matcher for the first literal of a plain alternation that matches
at the current position. -/
def litAltM (ws : List (List Char)) (_ : Option Char) (s : List Char) : Option ℕ :=
  ws.findSome? (fun w => if w.isPrefixOf s then some w.length else none)

/-- Matcher for a capitalized adverb: a maximal letter run of length at
least four ending in the two adverb letters, at a right word
boundary.  Case folding makes the leading class any letter. -/
def adverbM (prev : Option Char) (s : List Char) : Option ℕ :=
  match prev with
  | some c => if c.isAlpha then none else adverbAt s
  | none => adverbAt s
where
  adverbAt (s : List Char) : Option ℕ :=
    if 4 ≤ (s.takeWhile Char.isAlpha).length ∧
        (strL "ly").isSuffixOf (s.takeWhile Char.isAlpha) ∧
        ¬ isWordO ((s.drop (s.takeWhile Char.isAlpha).length).head?) then
      some (s.takeWhile Char.isAlpha).length
    else none

/-- Whether a position preceded by this character starts a maximal
non-terminator run. -/
def termRunStart : Option Char → Bool
  | none => true
  | some c => isTermCh c

/-- Count of sentence-length character runs: maximal non-terminator
runs of length at least thirty. -/
def longRunM (prev : Option Char) (s : List Char) : Option ℕ :=
  if termRunStart prev ∧ 30 ≤ (s.takeWhile (fun c => ¬ isTermCh c)).length then
    some (s.takeWhile (fun c => ¬ isTermCh c)).length
  else none

/-- Matcher for digits, a dot, then whitespace. -/
def numDotWsM (_ : Option Char) (s : List Char) : Option ℕ :=
  if 0 < (s.takeWhile Char.isDigit).length ∧
      (s.drop (s.takeWhile Char.isDigit).length).head? = some '.' ∧
      0 < ((s.drop ((s.takeWhile Char.isDigit).length + 1)).takeWhile pySpace).length then
    some ((s.takeWhile Char.isDigit).length + 1 +
      ((s.drop ((s.takeWhile Char.isDigit).length + 1)).takeWhile pySpace).length)
  else none

/-- Matcher for a dash followed by whitespace. -/
def dashWsM (_ : Option Char) (s : List Char) : Option ℕ :=
  match s with
  | '-' :: rest =>
    if 0 < (rest.takeWhile pySpace).length then some (1 + (rest.takeWhile pySpace).length)
    else none
  | _ => none

/-- Matcher for an optionally pluralized literal, longest form first. -/
def pluralM (stem : List Char) (_ : Option Char) (s : List Char) : Option ℕ :=
  if (stem ++ [Char.toLower 'S']).isPrefixOf s then some (stem.length + 1)
  else if stem.isPrefixOf s then some stem.length
  else none

/-- Matcher for digits followed by a percent sign. -/
def numPercentM (_ : Option Char) (s : List Char) : Option ℕ :=
  if 0 < (s.takeWhile Char.isDigit).length ∧
      (s.drop (s.takeWhile Char.isDigit).length).head? = some '%' then
    some ((s.takeWhile Char.isDigit).length + 1)
  else none

/-- Matcher for a decimal number: digits, a dot, digits. -/
def decimalM (_ : Option Char) (s : List Char) : Option ℕ :=
  if 0 < (s.takeWhile Char.isDigit).length ∧
      (s.drop (s.takeWhile Char.isDigit).length).head? = some '.' ∧
      0 < ((s.drop ((s.takeWhile Char.isDigit).length + 1)).takeWhile Char.isDigit).length then
    some ((s.takeWhile Char.isDigit).length + 1 +
      ((s.drop ((s.takeWhile Char.isDigit).length + 1)).takeWhile Char.isDigit).length)
  else none

/-- Number of exclamation-ended matches: the anchored pattern matches
exactly once when the text ends in an exclamation mark followed only by
whitespace. -/
def bangEndCount (t : List Char) : ℕ :=
  if ((t.reverse.dropWhile pySpace).head?) = some '!' then 1 else 0

/-- Number of matches of the anchored heading pattern: at most one, at
the very start of the text, any letter then a colon within
non-terminator characters. -/
def startColonCount (t : List Char) : ℕ :=
  match t with
  | c :: cs => if c.isAlpha ∧ PAS.colonBeforeTerm cs then 1 else 0
  | [] => 0

/-- Formal-style match total over the five formal patterns. -/
def formalCount (tl : List Char) : ℕ :=
  scanCount (wbAltM (["therefore", "however", "furthermore", "consequently",
    "accordingly"].map String.toList)) none tl +
  scanCount adverbM none tl +
  countSub (strL "in conclusion") tl + countSub (strL "in summary") tl +
  countSub (strL "it is evident") tl

/-- Informal-style match total over the eight informal patterns. -/
def informalCount (tl : List Char) : ℕ :=
  scanCount (wbAltM (["hey", "hi", "hello", "thanks", "cheers", "awesome",
    "great", "perfect"].map String.toList)) none tl +
  countSub (apoStr "let" "s") tl + countSub (apoStr "we" "ll") tl +
  countSub (apoStr "we" "re") tl + countSub (apoStr "i" "m") tl +
  countSub (apoStr "you" "re") tl +
  bangEndCount tl +
  scanCount (litAltM [strL ":)", strL ":d", strL ";)"]) none tl

/-- Direct-style match total over the seven direct patterns. -/
def directCount (tl : List Char) : ℕ :=
  startColonCount tl +
  scanCount (wbAltM (["yes", "no", "exactly", "precisely", "correct",
    "incorrect"].map String.toList)) none tl +
  scanCount numDotWsM none tl + scanCount dashWsM none tl +
  scanCount (pluralM (strL "key point")) none tl +
  countSub (strL "main idea") tl + countSub (strL "bottom line") tl

/-- Narrative-style match total over the eight narrative patterns. -/
def narrativeCount (tl : List Char) : ℕ :=
  scanCount longRunM none tl +
  countSub (strL "story") tl + countSub (strL "example") tl +
  countSub (strL "scenario") tl + countSub (strL "imagine") tl +
  countSub (strL "for instance") tl + countSub (strL "to illustrate") tl +
  countSub (strL "in other words") tl

/-- Data-driven match total over the twelve data patterns. -/
def dataDrivenCount (tl : List Char) : ℕ :=
  scanCount numPercentM none tl + scanCount decimalM none tl +
  scanCount (pluralM (strL "statistic")) none tl +
  countSub (strL "data") tl + countSub (strL "research") tl +
  countSub (strL "study") tl + countSub (strL "analysis") tl +
  countSub (strL "metrics") tl + countSub (strL "chart") tl +
  countSub (strL "graph") tl + countSub (strL "table") tl +
  countSub (strL "figure") tl

/-- Style-intensity vector over the five style families. -/
structure StyleVec where
  formal : ℚ
  informal : ℚ
  direct : ℚ
  narrative : ℚ
  dataDriven : ℚ

/-- Style analysis of one text: each family scores a tenth per match,
capped at one.  The subject is lowered first, as in the source. -/
def styleVec (t : List Char) : StyleVec :=
  { formal := min ((formalCount (lowerL t) : ℚ) * 0.1) 1
    informal := min ((informalCount (lowerL t) : ℚ) * 0.1) 1
    direct := min ((directCount (lowerL t) : ℚ) * 0.1) 1
    narrative := min ((narrativeCount (lowerL t) : ℚ) * 0.1) 1
    dataDriven := min ((dataDrivenCount (lowerL t) : ℚ) * 0.1) 1 }

/-- Index of the dominant style family, first maximum in declaration
order. -/
def domIdx (v : StyleVec) : ℕ :=
  argmaxFirst (0, v.formal)
    [(1, v.informal), (2, v.direct), (3, v.narrative), (4, v.dataDriven)]

/-- Intensity of the dominant style family. -/
def domVal (v : StyleVec) : ℚ :=
  max (max (max (max v.formal v.informal) v.direct) v.narrative) v.dataDriven

/-- Per-family similarity total, a fifth weight per family. -/
def styleSim (u a : StyleVec) : ℚ :=
  (1 - |u.formal - a.formal|) * 0.2 + (1 - |u.informal - a.informal|) * 0.2 +
  (1 - |u.direct - a.direct|) * 0.2 + (1 - |u.narrative - a.narrative|) * 0.2 +
  (1 - |u.dataDriven - a.dataDriven|) * 0.2

/-- Style synchronization: dominant-match bonus plus capped similarity,
capped at one. -/
def styleSyncOf (u a : StyleVec) : ℚ :=
  min ((if domIdx u = domIdx a ∧ 0.3 < domVal u then (0.4 : ℚ) else 0) +
       min (styleSim u a) 0.6) 1

/-- Goal-indicating keywords looked for in the prompt. -/
def goalKeywords : List (List Char) :=
  ["goal", "objective", "target", "aim", "purpose", "want", "need",
   "looking for", "trying to", "achieve", "accomplish", "solve", "fix"].map String.toList

/-- Goal-acknowledgment phrases looked for in the response. -/
def goalAckPhrases : List (List Char) :=
  ["your goal", "your objective", "what you want", "to achieve",
   "to accomplish", "as you requested"].map String.toList

/-- Goal synchronization: neutral without stated goals, high with an
acknowledgment, low otherwise. -/
def goalSync (p r : List Char) : ℚ :=
  if ¬ goalKeywords.any (fun k => isSubstr k (lowerL p)) then 0.7
  else if goalAckPhrases.any (fun k => isSubstr k (lowerL r)) then 0.9
  else 0.6

/-- Expectation keywords of the expectation rule. -/
def expectationWords : List (List Char) :=
  ["list", "bullet", "summary", "detailed", "brief", "simple", "complex",
   "step by step", "example", "explain", "define", "compare", "analyze"].map String.toList

/-- Contribution of one expectation keyword: one when the keyword is in
the prompt and the response satisfies the implied expectation, through
the branch chain of the source. -/
def wordContribution (w pl rl : List Char) : ℕ :=
  if isSubstr w pl then
    (if (w = strL "list" ∨ w = strL "bullet") ∧
        (isSubstr (strL "\n- ") rl ∨ isSubstr (strL "\n* ") rl) then 1
     else if (w = strL "summary" ∨ w = strL "brief") ∧ wordCountL rl < 150 then 1
     else if (w = strL "detailed" ∨ w = strL "complex") ∧ 200 < wordCountL rl then 1
     else if isSubstr w rl then 1
     else 0)
  else 0

/-- Number of satisfied expectation keywords across the keyword
table. -/
def expectationMatches (p r : List Char) : ℕ :=
  (expectationWords.map (fun w => wordContribution w (lowerL p) (lowerL r))).sum

/-- Expectation synchronization: half plus a fifth per satisfied
keyword capped at one when any keyword was satisfied, neutral
otherwise. -/
def calcExpectationSync (p r : List Char) : ℚ :=
  if 0 < expectationMatches p r then
    min (0.5 + (expectationMatches p r : ℚ) * 0.2) 1
  else 0.7

/-- Depth synchronization: tier the ideal response length by prompt
length and score the actual-to-ideal ratio. -/
def depthSync (p r : List Char) : ℚ :=
  if 0.7 ≤ lengthRatioOf p r ∧ lengthRatioOf p r ≤ 1.3 then 0.9
  else if 0.4 ≤ lengthRatioOf p r ∧ lengthRatioOf p r ≤ 1.6 then 0.7
  else 0.4
where
  idealLen (p : List Char) : ℚ :=
    if wordCountL p < 10 then 50 else if wordCountL p < 30 then 100 else 200
  lengthRatioOf (p r : List Char) : ℚ :=
    if 0 < idealLen p then (wordCountL r : ℚ) / idealLen p else 1.0

/-- Synchronization-alignment score: weighted sum of the four
components. -/
def sasScore (p r : List Char) : ℚ :=
  styleSyncOf (styleVec p) (styleVec r) * 0.35 + goalSync p r * 0.25 +
  calcExpectationSync p r * 0.20 + depthSync p r * 0.20

theorem styleField_bounds (k : ℕ) : 0 ≤ min ((k : ℚ) * 0.1) 1 ∧ min ((k : ℚ) * 0.1) 1 ≤ 1 :=
  ⟨le_min (by positivity) (by norm_num), min_le_right _ _⟩

theorem simTerm_bounds (x y : ℚ) (hx0 : 0 ≤ x) (hx1 : x ≤ 1) (hy0 : 0 ≤ y) (hy1 : y ≤ 1) :
    0 ≤ (1 - |x - y|) * 0.2 ∧ (1 - |x - y|) * 0.2 ≤ 0.2 := by
  have habs : |x - y| ≤ 1 := abs_le.mpr ⟨by linarith, by linarith⟩
  have habs0 : 0 ≤ |x - y| := abs_nonneg _
  constructor <;> nlinarith

theorem styleSim_bounds (u v : List Char) :
    0 ≤ styleSim (styleVec u) (styleVec v) ∧ styleSim (styleVec u) (styleVec v) ≤ 1 := by
  obtain ⟨a0, a1⟩ := styleField_bounds (formalCount (lowerL u))
  obtain ⟨b0, b1⟩ := styleField_bounds (informalCount (lowerL u))
  obtain ⟨c0, c1⟩ := styleField_bounds (directCount (lowerL u))
  obtain ⟨d0, d1⟩ := styleField_bounds (narrativeCount (lowerL u))
  obtain ⟨e0, e1⟩ := styleField_bounds (dataDrivenCount (lowerL u))
  obtain ⟨a0', a1'⟩ := styleField_bounds (formalCount (lowerL v))
  obtain ⟨b0', b1'⟩ := styleField_bounds (informalCount (lowerL v))
  obtain ⟨c0', c1'⟩ := styleField_bounds (directCount (lowerL v))
  obtain ⟨d0', d1'⟩ := styleField_bounds (narrativeCount (lowerL v))
  obtain ⟨e0', e1'⟩ := styleField_bounds (dataDrivenCount (lowerL v))
  obtain ⟨t1l, t1r⟩ := simTerm_bounds _ _ a0 a1 a0' a1'
  obtain ⟨t2l, t2r⟩ := simTerm_bounds _ _ b0 b1 b0' b1'
  obtain ⟨t3l, t3r⟩ := simTerm_bounds _ _ c0 c1 c0' c1'
  obtain ⟨t4l, t4r⟩ := simTerm_bounds _ _ d0 d1 d0' d1'
  obtain ⟨t5l, t5r⟩ := simTerm_bounds _ _ e0 e1 e0' e1'
  unfold styleSim styleVec
  constructor <;> · simp only; linarith

theorem styleSyncOf_bounds (u v : List Char) :
    0 ≤ styleSyncOf (styleVec u) (styleVec v) ∧ styleSyncOf (styleVec u) (styleVec v) ≤ 1 := by
  obtain ⟨s0, _⟩ := styleSim_bounds u v
  unfold styleSyncOf
  refine ⟨le_min ?_ (by norm_num), min_le_right _ _⟩
  have h1 : (0 : ℚ) ≤ (if domIdx (styleVec u) = domIdx (styleVec v) ∧
      0.3 < domVal (styleVec u) then (0.4 : ℚ) else 0) := by split_ifs <;> norm_num
  have h2 : (0 : ℚ) ≤ min (styleSim (styleVec u) (styleVec v)) 0.6 := le_min s0 (by norm_num)
  linarith

theorem goalSync_bounds (p r : List Char) : 0 ≤ goalSync p r ∧ goalSync p r ≤ 1 := by
  unfold goalSync; split_ifs <;> norm_num

theorem calcExpectationSync_bounds (p r : List Char) :
    0 ≤ calcExpectationSync p r ∧ calcExpectationSync p r ≤ 1 := by
  unfold calcExpectationSync
  split_ifs
  · exact ⟨le_min (by positivity) (by norm_num), min_le_right _ _⟩
  · norm_num

theorem depthSync_bounds (p r : List Char) : 0 ≤ depthSync p r ∧ depthSync p r ≤ 1 := by
  unfold depthSync; split_ifs <;> norm_num

theorem sasScore_bounds (p r : List Char) : 0 ≤ sasScore p r ∧ sasScore p r ≤ 1 := by
  unfold sasScore
  obtain ⟨a0, a1⟩ := styleSyncOf_bounds p r
  obtain ⟨b0, b1⟩ := goalSync_bounds p r
  obtain ⟨c0, c1⟩ := calcExpectationSync_bounds p r
  obtain ⟨d0, d1⟩ := depthSync_bounds p r
  constructor <;> nlinarith

end SAS

/-- One stored conversation turn: the two texts and the achieved
progression level recorded for them. -/
structure Turn where
  user_prompt : List Char
  ai_response : List Char
  cps_level : ℕ
deriving DecidableEq

namespace CPS

/-- Prompt keywords of the five progression levels. -/
def userKeywords : ℕ → List (List Char)
  | 1 => ["what is", "define", "explain", "tell me about", "what does",
          "how does", "why is", "when should"].map String.toList
  | 2 => ["options", "examples", "compare", "different ways", "alternatives",
          "possibilities", "what are some", "show me", "give me examples"].map String.toList
  | 3 => ["how to", "apply", "steps", "implement", "process", "method",
          "procedure", "guide", "tutorial", "walk me through", "show me how"].map String.toList
  | 4 => [apoStr "let" "s", strL "we can", strL "we should", strL "build together",
          strL "collaborate", strL "partner", strL "your input", strL "what do you think",
          strL "our", strL "together", strL "jointly", strL "work with me"]
  | 5 => ["could also", "apply to", "broader use", "generalize", "other applications",
          "beyond this", "what if", "how else", "future implications", "long-term"].map String.toList
  | _ => []

/-- Response keywords of the five progression levels. -/
def aiKeywords : ℕ → List (List Char)
  | 1 => ["definition", "explanation", "introduction", "overview", "basic concept",
          "fundamental", "simple terms"].map String.toList
  | 2 => ["options include", "examples are", "compare and contrast", "different approaches",
          "several ways", "alternatives", "for instance", "such as"].map String.toList
  | 3 => ["step by step", "first then", "process involves", "implementation guide",
          "actionable steps", "methodology", "to apply this", "practical approach"].map String.toList
  | 4 => [apoStr "let" "s", strL "we can", strL "we should", strL "together we",
          strL "collaboratively", strL "partnership", strL "your thoughts",
          strL "what are your ideas", strL "how shall we", strL "shall we"]
  | 5 => ["broader implications", "can be applied to", "generalizes to", "other contexts",
          "future applications", "extending this", "similar principles", "across domains"].map String.toList
  | _ => []

/-- Number of word-bounded keyword hits of one level in a lowered
text. -/
def levelHits (kws : List (List Char)) (tl : List Char) : ℕ :=
  kws.countP (fun k => wbContains k tl)

/-- Detected prompt level: weighted first-argmax over the five levels,
each raw count scaled up a tenth per level. -/
def detectUserLevel (p : List Char) : ℕ :=
  argmaxFirst (1, (levelHits (userKeywords 1) (lowerL p) : ℚ) * (1 + 1 * 0.1))
    [(2, (levelHits (userKeywords 2) (lowerL p) : ℚ) * (1 + 2 * 0.1)),
     (3, (levelHits (userKeywords 3) (lowerL p) : ℚ) * (1 + 3 * 0.1)),
     (4, (levelHits (userKeywords 4) (lowerL p) : ℚ) * (1 + 4 * 0.1)),
     (5, (levelHits (userKeywords 5) (lowerL p) : ℚ) * (1 + 5 * 0.1))]

/-- Detected response level: first-argmax over raw counts; the branch
answering two on an empty score table is kept although the table below
is never empty. -/
def detectAiLevel (r : List Char) : ℕ :=
  match [(1, levelHits (aiKeywords 1) (lowerL r)),
         (2, levelHits (aiKeywords 2) (lowerL r)),
         (3, levelHits (aiKeywords 3) (lowerL r)),
         (4, levelHits (aiKeywords 4) (lowerL r)),
         (5, levelHits (aiKeywords 5) (lowerL r))] with
  | [] => 2
  | x :: xs => argmaxFirst x xs

/-- Achieved progression level: the larger detected level, a one-step
progression bonus over the recent history ceiling capped at five, then
floored by the user level and capped at five. -/
def determineAchievedLevel (u a : ℕ) (hist : List Turn) : ℕ :=
  min (max (if hist ≠ [] then
              (if listMaxN ((hist.drop (hist.length - 3)).map Turn.cps_level) <
                  max u a then min (max u a + 1) 5 else max u a)
            else max u a) u) 5

/-- Achieved level of one exchange against the history window. -/
def achievedLevel (p r : List Char) (hist : List Turn) : ℕ :=
  determineAchievedLevel (detectUserLevel p) (detectAiLevel r) hist

/-- Progression score: achieved level over five. -/
def cpsScore (p r : List Char) (hist : List Turn) : ℚ :=
  (achievedLevel p r hist : ℚ) / 5

theorem detectUserLevel_bounds (p : List Char) :
    1 ≤ detectUserLevel p ∧ detectUserLevel p ≤ 5 := by
  unfold detectUserLevel
  apply argmaxFirst_bounds 1 5 _ _ (by norm_num) (by norm_num)
  intro x hx
  simp only [List.mem_cons, List.not_mem_nil, or_false] at hx
  rcases hx with h | h | h | h <;> subst h <;> norm_num

theorem detectAiLevel_bounds (r : List Char) :
    1 ≤ detectAiLevel r ∧ detectAiLevel r ≤ 5 := by
  unfold detectAiLevel
  apply argmaxFirst_bounds 1 5 _ _ (by norm_num) (by norm_num)
  intro x hx
  simp only [List.mem_cons, List.not_mem_nil, or_false] at hx
  rcases hx with h | h | h | h <;> subst h <;> norm_num

theorem determineAchievedLevel_bounds (u a : ℕ) (hist : List Turn) (hu : 1 ≤ u) :
    1 ≤ determineAchievedLevel u a hist ∧ determineAchievedLevel u a hist ≤ 5 := by
  unfold determineAchievedLevel
  constructor
  · refine le_min ?_ (by norm_num)
    exact le_trans hu (le_max_right _ _)
  · exact min_le_right _ _

theorem cpsScore_bounds (p r : List Char) (hist : List Turn) :
    0 ≤ cpsScore p r hist ∧ cpsScore p r hist ≤ 1 := by
  unfold cpsScore achievedLevel
  obtain ⟨h1, h5⟩ := determineAchievedLevel_bounds (detectUserLevel p) (detectAiLevel r) hist
    (detectUserLevel_bounds p).1
  constructor
  · positivity
  · rw [div_le_one (by norm_num)]
    exact_mod_cast h5

end CPS

namespace CSS

/-- Positive safety-signal phrases. -/
def positiveSignals : List (List Char) :=
  [strL "does this make sense", strL "please clarify", strL "let me know",
   strL "your thoughts", strL "what do you think", strL "feel free to ask",
   strL "i want to ensure", apoStr "correct me if I" "m wrong",
   strL "am I understanding", strL "we can adjust", strL "your feedback",
   strL "how does that sound", strL "comfortable with", strL "happy to explain",
   strL "take your time"]

/-- Negative safety-signal phrases. -/
def negativeSignals : List (List Char) :=
  [strL "obviously", strL "clearly", strL "everyone knows", strL "you should know",
   strL "basic knowledge", strL "simple concept", strL "easy to understand",
   strL "no excuse for not knowing", apoStr "if you can" "t understand this",
   strL "even a child could"]

/-- Collaborative-language phrases. -/
def collaborativePhrases : List (List Char) :=
  [apoStr "let" "s", strL "we can", strL "we should", strL "our", strL "together",
   strL "collaborate", strL "partner", strL "jointly", strL "build with",
   strL "work together", strL "team effort"]

/-- Empowerment-signal phrases. -/
def empowermentSignals : List (List Char) :=
  [strL "you can", strL "you have the ability", strL "your expertise",
   strL "build on your knowledge", strL "apply this to", strL "generalize",
   strL "expand this concept", strL "future applications"]

/-- Response safety sub-score: neutral start, credits for positive,
collaborative and empowerment signals, a penalty per negative signal,
clamped to the unit interval. -/
def aiSafety (r : List Char) : ℚ :=
  max 0 (min (0.5 + (positiveSignals.countP (fun s => isSubstr s (lowerL r)) : ℚ) * 0.1 +
              (collaborativePhrases.countP (fun s => isSubstr s (lowerL r)) : ℚ) * 0.08 +
              (empowermentSignals.countP (fun s => isSubstr s (lowerL r)) : ℚ) * 0.07 -
              (negativeSignals.countP (fun s => isSubstr s (lowerL r)) : ℚ) * 0.15) 1)

/-- Comfort keywords of the prompt analysis. -/
def comfortableSignals : List (List Char) :=
  ["confident", "comfortable", "clear", "understand", "excited", "interested",
   "curious", "ready"].map String.toList

/-- Discomfort keywords of the prompt analysis. -/
def uncomfortableSignals : List (List Char) :=
  ["confused", "frustrated", "overwhelmed", "lost", "complicated", "difficult",
   "hard", "struggling"].map String.toList

/-- User comfort sub-score: neutral start, comfort credit, discomfort
penalty, clamped. -/
def userComfort (p : List Char) : ℚ :=
  max 0 (min (0.5 + (comfortableSignals.countP (fun s => isSubstr s (lowerL p)) : ℚ) * 0.1 -
              (uncomfortableSignals.countP (fun s => isSubstr s (lowerL p)) : ℚ) * 0.15) 1)

/-- Context sub-score from the two word counts: verbosity penalty past
a five-to-one ratio, conciseness bonus below one half, clamped. -/
def contextScore (respLen promptLen : ℕ) : ℚ :=
  max 0 (min (if 0 < promptLen ∧ 0 < respLen then
                (if 5 < (respLen : ℚ) / (promptLen : ℚ) then 0.7 - 0.2
                 else if (respLen : ℚ) / (promptLen : ℚ) < 0.5 then 0.7 + 0.1
                 else 0.7)
              else 0.7) 1)

/-- Discrete safety level from the combined weighted score. -/
def determineCssLevel (a u c : ℚ) : ℕ :=
  if 0.8 ≤ a * 0.6 + u * 0.3 + c * 0.1 then 5
  else if 0.7 ≤ a * 0.6 + u * 0.3 + c * 0.1 then 4
  else if 0.6 ≤ a * 0.6 + u * 0.3 + c * 0.1 then 3
  else if 0.4 ≤ a * 0.6 + u * 0.3 + c * 0.1 then 2
  else 1

/-- Safety level of one exchange given the derived length metadata. -/
def cssLevel (p r : List Char) (respLen promptLen : ℕ) : ℕ :=
  determineCssLevel (aiSafety r) (userComfort p) (contextScore respLen promptLen)

/-- Safety score: level over five. -/
def cssScore (p r : List Char) (respLen promptLen : ℕ) : ℚ :=
  (cssLevel p r respLen promptLen : ℚ) / 5

theorem determineCssLevel_bounds (a u c : ℚ) :
    1 ≤ determineCssLevel a u c ∧ determineCssLevel a u c ≤ 5 := by
  unfold determineCssLevel
  split_ifs <;> norm_num

theorem cssScore_bounds (p r : List Char) (respLen promptLen : ℕ) :
    0 ≤ cssScore p r respLen promptLen ∧ cssScore p r respLen promptLen ≤ 1 := by
  unfold cssScore cssLevel
  obtain ⟨h1, h5⟩ := determineCssLevel_bounds (aiSafety r) (userComfort p)
    (contextScore respLen promptLen)
  constructor
  · positivity
  · rw [div_le_one (by norm_num)]
    exact_mod_cast h5

end CSS

/-- The three user-intent patterns. -/
inductive UIP where
  | precision_seeker
  | strategic_explorer
  | co_creation_partner
deriving DecidableEq

namespace AM

/-- Keywords of the precision-seeker intent. -/
def precisionKeywords : List (List Char) :=
  ["exact", "define", "list", "specifically", "no fluff", "correct", "only",
   "step-by-step"].map String.toList

/-- Keywords of the strategic-explorer intent. -/
def strategicKeywords : List (List Char) :=
  ["framework", "model", "system", "big picture", "how does this fit", "map",
   "concept"].map String.toList

/-- Keywords of the co-creation-partner intent. -/
def coCreationKeywords : List (List Char) :=
  [apoStr "let" "s", strL "build", strL "together", strL "collaborate",
   strL "your input", strL "what do you think"]

/-- Number of word-bounded keyword hits of one intent in the lowered
prompt. -/
def uipHits (kws : List (List Char)) (pl : List Char) : ℕ :=
  kws.countP (fun k => wbContains k pl)

/-- Best-intent fold: a later intent replaces the current best only
with a strictly greater score, starting from the precision default at
zero. -/
def uipFold (best : UIP × ℕ) : List (UIP × ℕ) → UIP × ℕ
  | [] => best
  | x :: xs => if best.2 < x.2 then uipFold x xs else uipFold best xs

/-- Detected intent with its raw best score. -/
def detectUipPair (p : List Char) : UIP × ℕ :=
  uipFold (UIP.precision_seeker, 0)
    [(UIP.precision_seeker, uipHits precisionKeywords (lowerL p)),
     (UIP.strategic_explorer, uipHits strategicKeywords (lowerL p)),
     (UIP.co_creation_partner, uipHits coCreationKeywords (lowerL p))]

/-- Detected user-intent pattern of a prompt. -/
def detectUip (p : List Char) : UIP := (detectUipPair p).1

/-- Detection confidence: best score over three, capped at one. -/
def uipConfidence (p : List Char) : ℚ := min (((detectUipPair p).2 : ℚ) / 3) 1

/-- Style scores of a response over the four named styles. -/
structure StyleScores where
  concise : ℚ
  structured : ℚ
  interactive : ℚ
  framework : ℚ

/-- Number of true entries of a boolean list. -/
def boolCount (l : List Bool) : ℕ := l.countP id

/-- Style analysis of a response: a length check for the concise style
and pattern checks contributing three tenths each for the others, each
style capped at one. -/
def analyzeAiStyle (r : List Char) : StyleScores :=
  { concise := min (if wordCountL r ≤ 150 then (0.5 : ℚ) else 0) 1
    structured := min ((boolCount [0 < scanCount PAS.nlNumDotM none (lowerL r),
        isSubstr (strL "\n- ") (lowerL r), isSubstr (strL "first") (lowerL r),
        isSubstr (strL "next") (lowerL r), isSubstr (strL "finally") (lowerL r)] : ℚ) * 0.3) 1
    interactive := min ((boolCount [isSubstr (strL "?") (lowerL r),
        isSubstr (strL "your input") (lowerL r),
        isSubstr (strL "collaborate") (lowerL r)] : ℚ) * 0.3) 1
    framework := min ((boolCount [isSubstr (strL "like a") (lowerL r),
        isSubstr (strL "similar to") (lowerL r), isSubstr (strL "framework") (lowerL r),
        isSubstr (strL "model") (lowerL r)] : ℚ) * 0.3) 1 }

/-- Preferred response styles of each intent, as named in the source
tables; two names per intent have no detector in the style analysis. -/
def preferredStyles : UIP → List (List Char)
  | UIP.precision_seeker => ["concise", "structured", "bounded", "bullet points"].map String.toList
  | UIP.strategic_explorer => ["framework", "analogy", "structured", "overview"].map String.toList
  | UIP.co_creation_partner => ["interactive", "iterative", "suggestive", "questioning"].map String.toList

/-- Style lookup by name with a zero default, the model of the map
lookup with default on the style dictionary. -/
def styleGet (st : StyleScores) (name : List Char) : ℚ :=
  if name = strL "concise" then st.concise
  else if name = strL "structured" then st.structured
  else if name = strL "interactive" then st.interactive
  else if name = strL "framework" then st.framework
  else 0

/-- Averaged preferred-style match of the response, capped at one. -/
def styleMatchOf (uip : UIP) (st : StyleScores) : ℚ :=
  min (((preferredStyles uip).map (styleGet st)).sum / ((preferredStyles uip).length : ℚ)) 1

/-- Base multiplier from the style match through the five tiers. -/
def amBase (sm : ℚ) : ℚ :=
  if 0.8 ≤ sm then 1.2
  else if 0.6 ≤ sm then 1.1
  else if 0.4 ≤ sm then 1.0
  else if 0.2 ≤ sm then 0.9
  else 0.8

/-- Alignment multiplier: tiered base, precision length penalty,
co-creation interactivity bonus, clamped to the band. -/
def calcAm (uip : UIP) (st : StyleScores) (wc : ℕ) : ℚ :=
  max 0.8 (min (amBase (styleMatchOf uip st) +
    (if uip = UIP.precision_seeker ∧ 300 < wc then (-0.1 : ℚ) else 0) +
    (if uip = UIP.co_creation_partner ∧ 0.5 < st.interactive then (0.1 : ℚ) else 0)) 1.2)

/-- Alignment multiplier of one exchange. -/
def amScore (p r : List Char) : ℚ :=
  calcAm (detectUip p) (analyzeAiStyle r) (wordCountL r)

theorem amScore_band (p r : List Char) : 0.8 ≤ amScore p r ∧ amScore p r ≤ 1.2 := by
  unfold amScore calcAm
  exact ⟨le_max_left _ _, max_le (by norm_num) (min_le_right _ _)⟩

end AM

namespace CAI

/-- Pattern syntax used by the anchor templates: literals, ordered
alternation, concatenation, greedy option, and the lazy tail group
that every template captures: one or more non-terminator characters up
to a lookahead for a terminator, a comma or the end. -/
inductive RE where
  | lit : List Char → RE
  | alt : RE → RE → RE
  | cat : RE → RE → RE
  | opt : RE → RE
  | tg : RE

/-- Lookahead of the tail group: end of the sentence or one of the
four stop characters. -/
def lookTgOk (s : List Char) : Bool :=
  match s with
  | [] => true
  | c :: _ => c = '.' || c = '?' || c = '!' || c = ','

/-- Lazy tail-group matching: consume at least one non-terminator
character and stop as early as the lookahead and the continuation
allow, extending on failure. -/
def tgRun : List Char → (List Char → Option (List Char)) → Option (List Char)
  | [], _ => none
  | c :: cs, k =>
    if isTermCh c then none
    else (if lookTgOk cs then k cs else none) <|> tgRun cs k

/-- Backtracking matcher in continuation style: alternatives are tried
left to right and the option is greedy, as in the host pattern
engine; answers the suffix remaining after the overall match. -/
def reM : RE → List Char → (List Char → Option (List Char)) → Option (List Char)
  | .lit w, s, k => if w.isPrefixOf s then k (s.drop w.length) else none
  | .alt a b, s, k => reM a s k <|> reM b s k
  | .cat a b, s, k => reM a s (fun rest => reM b rest k)
  | .opt a, s, k => reM a s k <|> k s
  | .tg, s, k => tgRun s k

/-- Length of the leftmost match starting at the head of the suffix. -/
def reMatchAt (r : RE) (s : List Char) : Option ℕ :=
  (reM r s some).map (fun rest => s.length - rest.length)

/-- All non-overlapping leftmost matches of a pattern, as whole-match
texts; the scan resumes after each match. -/
def reFindAll (r : RE) : List Char → List (List Char)
  | [] => []
  | c :: cs =>
    match reMatchAt r (c :: cs) with
    | some k => (c :: cs).take k :: reFindAll r (List.drop (k - 1) cs)
    | none => reFindAll r cs
termination_by l => l.length
decreasing_by
  · simp only [List.length_drop, List.length_cons]; omega
  · simp only [List.length_cons]; omega

/-- Literal pattern from a string. -/
def litS (s : String) : RE := .lit s.toList

/-- Ordered alternation of a pattern list. -/
def altL : List RE → RE
  | [] => .lit []
  | x :: xs => xs.foldl RE.alt x

/-- Sequence of a pattern list. -/
def seqL : List RE → RE
  | [] => .lit []
  | x :: xs => xs.foldl RE.cat x

/-- Single-space literal separating template parts. -/
def sp : RE := litS " "

/-- Boundary templates, translated one to one from the source list. -/
def boundaryPatterns : List RE :=
  [seqL [altL [litS "this is", litS "we are", RE.cat (litS "focus") (RE.opt (litS "ing")),
       RE.cat (litS "concentrat") (RE.alt (litS "ing") (litS "e"))], sp,
     altL [litS "on", litS "about"], sp, RE.tg],
   seqL [altL [litS "not about", litS "excluding", litS "without", litS "ignore"], sp, RE.tg],
   seqL [altL [litS "scope is", litS "limited to", litS "specifically"], sp, RE.tg],
   seqL [altL [litS "rather than", litS "instead of"], sp, RE.tg],
   seqL [altL [RE.lit (apoStr "this isn" "t about"), litS "this is not about"], sp, RE.tg]]

/-- Analogy templates, translated one to one from the source list. -/
def analogyPatterns : List RE :=
  [seqL [altL [litS "like", litS "similar to", litS "comparable to"], sp,
     RE.opt (RE.alt (litS "a ") (litS "an ")), RE.tg],
   seqL [altL [litS "think of", litS "imagine", litS "picture"], sp,
     RE.opt (RE.alt (litS "it as ") (litS "this as ")),
     RE.opt (RE.alt (litS "a ") (litS "an ")), RE.tg],
   seqL [altL [litS "as if", litS "as though"], sp, RE.tg],
   seqL [altL [litS "analogous to", litS "akin to"], sp, RE.tg],
   seqL [altL [litS "metaphor", litS "analogy"], sp, altL [litS "of", litS "for"], sp, RE.tg]]

/-- Hypothesis templates, translated one to one from the source
list. -/
def hypothesisPatterns : List RE :=
  [seqL [altL [litS "if", litS "when"], sp, RE.tg, RE.opt (litS ","), sp,
     RE.opt (litS "then "), RE.tg],
   seqL [altL [litS "might", litS "could", litS "would", litS "should"], sp, RE.tg, sp,
     altL [litS "if", litS "when"], sp, RE.tg],
   seqL [altL [litS "hypothesis", litS "theory", litS "assumption"], RE.opt (litS ":"), sp, RE.tg],
   seqL [altL [litS "we can test", RE.lit (apoStr "let" "s test"), litS "test this by"], sp, RE.tg],
   seqL [altL [litS "suppose", litS "assuming"], sp, RE.tg]]

/-- The three anchor families. -/
inductive Fam where
  | boundary
  | analogy
  | hypothesis

/-- Collapses each whitespace run to a single space. -/
def collapseWs : List Char → List Char
  | [] => []
  | c :: cs =>
    if pySpace c then ' ' :: collapseWs (cs.dropWhile pySpace)
    else c :: collapseWs cs
termination_by l => l.length
decreasing_by
  · simp only [List.length_cons]
    exact Nat.lt_succ_of_le (length_dropWhile_le pySpace _)
  · simp only [List.length_cons]; omega

/-- Filler conjunctions stripped from the ends of an anchor. -/
def fillerWords : List (List Char) :=
  ["and", "or", "but", "so", "then", "also"].map String.toList

/-- Removes a leading filler conjunction and its following space. -/
def dropLeadFiller (t : List Char) : List Char :=
  match fillerWords.findSome? (fun w =>
      if (w ++ [' ']).isPrefixOf t then some (t.drop (w.length + 1)) else none) with
  | some t2 => t2
  | none => t

/-- Removes a trailing space and filler conjunction. -/
def dropTrailFiller (t : List Char) : List Char :=
  match fillerWords.findSome? (fun w =>
      if (' ' :: w).isSuffixOf t then some (t.take (t.length - (w.length + 1))) else none) with
  | some t2 => t2
  | none => t

/-- Anchor cleanup: collapse whitespace, strip, drop end fillers. -/
def cleanAnchor (t : List Char) : List Char :=
  dropTrailFiller (dropLeadFiller (pyStrip (collapseWs t)))

/-- Vague phrases that disqualify an anchor. -/
def bannedVague : List (List Char) :=
  ["this thing", "that stuff", "something"].map String.toList

/-- Anchor validation: at least one word, no banned vague phrase, and
the family-specific minimums. -/
def validateAnchor (t : List Char) (fam : Fam) : Bool :=
  if (pySplitWs t).length < 1 then false
  else if bannedVague.any (fun b => isSubstr b t) then false
  else
    match fam with
    | Fam.analogy => ¬ ((pySplitWs t).countP (fun w => 2 < w.length) < 1)
    | Fam.hypothesis => ¬ ((pySplitWs t).length < 2)
    | Fam.boundary => true

/-- Sentences of the lowered response: terminator split, stripped,
blanks skipped. -/
def sentencesOf (t : List Char) : List (List Char) :=
  ((splitRuns isTermCh (lowerL t)).map pyStrip).filter (fun s => ¬ s.isEmpty)

/-- Valid anchors of one family: per template and per sentence, the
matches whose cleaned text validates. -/
def familyCount (pats : List RE) (fam : Fam) (t : List Char) : ℕ :=
  (pats.map (fun pat =>
    ((sentencesOf t).map (fun sent =>
      ((reFindAll pat sent).filter (fun m => validateAnchor (cleanAnchor m) fam)).length)).sum)).sum

/-- Total valid anchors across the three families. -/
def totalValidAnchors (t : List Char) : ℕ :=
  familyCount boundaryPatterns Fam.boundary t +
  familyCount analogyPatterns Fam.analogy t +
  familyCount hypothesisPatterns Fam.hypothesis t

/-- Discrete anchoring ladder over the total anchor count. -/
def caiScoreOf (n : ℕ) : ℚ :=
  if n = 0 then 0.0
  else if n = 1 then 0.25
  else if n = 2 then 0.5
  else if n = 3 then 0.75
  else 1.0

/-- Conceptual-anchoring score of a response. -/
def caiScore (t : List Char) : ℚ := caiScoreOf (totalValidAnchors t)

theorem caiScoreOf_mem (n : ℕ) :
    caiScoreOf n = 0 ∨ caiScoreOf n = 0.25 ∨ caiScoreOf n = 0.5 ∨
    caiScoreOf n = 0.75 ∨ caiScoreOf n = 1 := by
  unfold caiScoreOf
  split_ifs <;> norm_num

theorem caiScore_bounds (t : List Char) : 0 ≤ caiScore t ∧ caiScore t ≤ 1 := by
  unfold caiScore caiScoreOf
  split_ifs <;> norm_num

end CAI

namespace App

/-- Composite result of one analysis call: the six dimension scores,
the alignment multiplier with its detected intent and confidence, the
resonance index, and the history window after the call. -/
structure Composite where
  iai : ℚ
  cai : ℚ
  pas : ℚ
  sas : ℚ
  cps : ℚ
  css : ℚ
  am : ℚ
  ri : ℚ
  confidence : ℚ
  uip : UIP
  history : List Turn

/-- Weighted aggregation of the six dimension scores times the
alignment multiplier, exactly as in the analysis body. -/
def riFormula (iai cai pas sas cps css am : ℚ) : ℚ :=
  (iai * 0.25 + cai * 0.20 + pas * 0.20 + sas * 0.15 + cps * 0.10 + css * 0.10) * am

/-- Last entries of a list up to the given count, the model of the
negative slice. -/
def lastN (n : ℕ) (l : List Turn) : List Turn := l.drop (l.length - n)

/-- Window update: append the turn, keep the last ten entries. -/
def pushTurn (h : List Turn) (t : Turn) : List Turn := lastN 10 (h ++ [t])

/-- The analysis body: each analyzer runs when its inputs are present,
the documented fallback constants apply otherwise, the history window
is extended only on a full exchange, and the resonance index combines
the six scores under the fixed weights times the multiplier. -/
def analyzeExchange (p r : List Char) (h : List Turn) : Composite :=
  let iai := IAI.iaiScore p
  let cai := if r ≠ [] then CAI.caiScore r else 0.0
  let pas := if r ≠ [] then PAS.pasScore r else 0.0
  let sas := if r ≠ [] ∧ p ≠ [] then SAS.sasScore p r else 0.5
  let cps := if r ≠ [] ∧ p ≠ [] then CPS.cpsScore p r h else 0.5
  let hist2 := if r ≠ [] ∧ p ≠ [] then pushTurn h ⟨p, r, CPS.achievedLevel p r h⟩ else h
  let css := if r ≠ [] ∧ p ≠ [] then CSS.cssScore p r (wordCountL r) (wordCountL p) else 0.5
  let am := if r ≠ [] ∧ p ≠ [] then AM.amScore p r else 1.0
  let uip := if r ≠ [] ∧ p ≠ [] then AM.detectUip p else UIP.precision_seeker
  let conf := if r ≠ [] ∧ p ≠ [] then AM.uipConfidence p else 0.5
  { iai := iai, cai := cai, pas := pas, sas := sas, cps := cps, css := css, am := am,
    ri := riFormula iai cai pas sas cps css am,
    confidence := conf, uip := uip, history := hist2 }

/-- The endpoint: an empty prompt is rejected before any analysis. -/
def analyzeEndpoint (p r : List Char) (h : List Turn) : Option Composite :=
  if p = [] then none else some (analyzeExchange p r h)

theorem lastN_length_le (n : ℕ) (l : List Turn) : (lastN n l).length ≤ n := by
  unfold lastN
  simp only [List.length_drop]
  omega

theorem pushTurn_length_le (h : List Turn) (t : Turn) : (pushTurn h t).length ≤ 10 :=
  lastN_length_le 10 _

theorem lastN_append_lastN (x ts : List Turn) :
    lastN 10 (lastN 10 x ++ ts) = lastN 10 (x ++ ts) := by
  by_cases hx : x.length ≤ 10
  · have hfix : lastN 10 x = x := by
      unfold lastN
      rw [Nat.sub_eq_zero_of_le hx, List.drop_zero]
    rw [hfix]
  · have hm : 10 ≤ x.length := by omega
    unfold lastN
    simp only [List.length_append, List.length_drop]
    rw [List.drop_append_eq_append_drop, List.drop_append_eq_append_drop, List.drop_drop]
    congr 1
    · congr 1
      try simp only [List.length_drop]
      omega
    · congr 1
      try simp only [List.length_drop]
      omega

theorem foldl_pushTurn (ts : List Turn) :
    ∀ h : List Turn, h.length ≤ 10 → List.foldl pushTurn h ts = lastN 10 (h ++ ts) := by
  induction ts with
  | nil =>
    intro h hlen
    simp only [List.foldl_nil, List.append_nil]
    unfold lastN
    rw [Nat.sub_eq_zero_of_le hlen, List.drop_zero]
  | cons t ts ih =>
    intro h hlen
    rw [List.foldl_cons, ih (pushTurn h t) (pushTurn_length_le h t)]
    show lastN 10 (lastN 10 (h ++ [t]) ++ ts) = _
    rw [lastN_append_lastN]
    congr 1
    simp

end App

/-- C1: for every analyzed exchange the resonance index equals the
fixed weighted sum of the six dimension scores, a quarter for input
alignment, a fifth for anchoring and process, fifteen hundredths for
synchronization, a tenth for progression and safety, multiplied by the
alignment multiplier, and those six weights sum exactly to one. -/
theorem c1_resonance_formula (p r : List Char) (h : List Turn) :
    (App.analyzeExchange p r h).ri =
      ((App.analyzeExchange p r h).iai * 0.25 + (App.analyzeExchange p r h).cai * 0.20 +
       (App.analyzeExchange p r h).pas * 0.20 + (App.analyzeExchange p r h).sas * 0.15 +
       (App.analyzeExchange p r h).cps * 0.10 + (App.analyzeExchange p r h).css * 0.10) *
      (App.analyzeExchange p r h).am ∧
    (0.25 + 0.20 + 0.20 + 0.15 + 0.10 + 0.10 : ℚ) = 1 :=
  ⟨rfl, by norm_num⟩

/-- C2: for every prompt, response and history, each of the six
dimension scores of the composite lies in the unit interval, the
alignment multiplier lies between four fifths and six fifths, and the
resonance index therefore lies between zero and six fifths. -/
theorem c2_score_ranges (p r : List Char) (h : List Turn) :
    (0 ≤ (App.analyzeExchange p r h).iai ∧ (App.analyzeExchange p r h).iai ≤ 1) ∧
    (0 ≤ (App.analyzeExchange p r h).cai ∧ (App.analyzeExchange p r h).cai ≤ 1) ∧
    (0 ≤ (App.analyzeExchange p r h).pas ∧ (App.analyzeExchange p r h).pas ≤ 1) ∧
    (0 ≤ (App.analyzeExchange p r h).sas ∧ (App.analyzeExchange p r h).sas ≤ 1) ∧
    (0 ≤ (App.analyzeExchange p r h).cps ∧ (App.analyzeExchange p r h).cps ≤ 1) ∧
    (0 ≤ (App.analyzeExchange p r h).css ∧ (App.analyzeExchange p r h).css ≤ 1) ∧
    (0.8 ≤ (App.analyzeExchange p r h).am ∧ (App.analyzeExchange p r h).am ≤ 1.2) ∧
    (0 ≤ (App.analyzeExchange p r h).ri ∧ (App.analyzeExchange p r h).ri ≤ 1.2) := by
  have hiai : 0 ≤ (App.analyzeExchange p r h).iai ∧ (App.analyzeExchange p r h).iai ≤ 1 :=
    IAI.iaiScore_bounds p
  have hcai : 0 ≤ (App.analyzeExchange p r h).cai ∧ (App.analyzeExchange p r h).cai ≤ 1 := by
    show 0 ≤ (if r ≠ [] then CAI.caiScore r else 0.0) ∧
      (if r ≠ [] then CAI.caiScore r else 0.0) ≤ 1
    split_ifs with hr
    · exact CAI.caiScore_bounds r
    · norm_num
  have hpas : 0 ≤ (App.analyzeExchange p r h).pas ∧ (App.analyzeExchange p r h).pas ≤ 1 := by
    show 0 ≤ (if r ≠ [] then PAS.pasScore r else 0.0) ∧
      (if r ≠ [] then PAS.pasScore r else 0.0) ≤ 1
    split_ifs with hr
    · exact PAS.pasScore_bounds r
    · norm_num
  have hsas : 0 ≤ (App.analyzeExchange p r h).sas ∧ (App.analyzeExchange p r h).sas ≤ 1 := by
    show 0 ≤ (if r ≠ [] ∧ p ≠ [] then SAS.sasScore p r else 0.5) ∧
      (if r ≠ [] ∧ p ≠ [] then SAS.sasScore p r else 0.5) ≤ 1
    split_ifs with hr
    · exact SAS.sasScore_bounds p r
    · norm_num
  have hcps : 0 ≤ (App.analyzeExchange p r h).cps ∧ (App.analyzeExchange p r h).cps ≤ 1 := by
    show 0 ≤ (if r ≠ [] ∧ p ≠ [] then CPS.cpsScore p r h else 0.5) ∧
      (if r ≠ [] ∧ p ≠ [] then CPS.cpsScore p r h else 0.5) ≤ 1
    split_ifs with hr
    · exact CPS.cpsScore_bounds p r h
    · norm_num
  have hcss : 0 ≤ (App.analyzeExchange p r h).css ∧ (App.analyzeExchange p r h).css ≤ 1 := by
    show 0 ≤ (if r ≠ [] ∧ p ≠ [] then CSS.cssScore p r (wordCountL r) (wordCountL p) else 0.5) ∧
      (if r ≠ [] ∧ p ≠ [] then CSS.cssScore p r (wordCountL r) (wordCountL p) else 0.5) ≤ 1
    split_ifs with hr
    · exact CSS.cssScore_bounds p r (wordCountL r) (wordCountL p)
    · norm_num
  have ham : 0.8 ≤ (App.analyzeExchange p r h).am ∧ (App.analyzeExchange p r h).am ≤ 1.2 := by
    show 0.8 ≤ (if r ≠ [] ∧ p ≠ [] then AM.amScore p r else 1.0) ∧
      (if r ≠ [] ∧ p ≠ [] then AM.amScore p r else 1.0) ≤ 1.2
    split_ifs with hr
    · exact AM.amScore_band p r
    · norm_num
  have hri : 0 ≤ (App.analyzeExchange p r h).ri ∧ (App.analyzeExchange p r h).ri ≤ 1.2 := by
    have hform : (App.analyzeExchange p r h).ri =
        ((App.analyzeExchange p r h).iai * 0.25 + (App.analyzeExchange p r h).cai * 0.20 +
         (App.analyzeExchange p r h).pas * 0.20 + (App.analyzeExchange p r h).sas * 0.15 +
         (App.analyzeExchange p r h).cps * 0.10 + (App.analyzeExchange p r h).css * 0.10) *
        (App.analyzeExchange p r h).am := rfl
    rw [hform]
    constructor
    · apply mul_nonneg
      · nlinarith [hiai.1, hcai.1, hpas.1, hsas.1, hcps.1, hcss.1]
      · linarith [ham.1]
    · nlinarith [hiai.1, hiai.2, hcai.1, hcai.2, hpas.1, hpas.2, hsas.1, hsas.2,
        hcps.1, hcps.2, hcss.1, hcss.2, ham.1, ham.2]
  exact ⟨hiai, hcai, hpas, hsas, hcps, hcss, ham, hri⟩

/-- C3: with no response supplied the composite uses exactly the
fallback constants: zero anchoring and process scores, one half for
synchronization, progression and safety, a unit multiplier with the
precision-seeker intent at confidence one half; the resonance index
reduces to a quarter of the input score plus the three weighted
halves, and the history window is left unchanged. -/
theorem c3_fallback_constants (p : List Char) (h : List Turn) :
    (App.analyzeExchange p [] h).cai = 0 ∧
    (App.analyzeExchange p [] h).pas = 0 ∧
    (App.analyzeExchange p [] h).sas = 0.5 ∧
    (App.analyzeExchange p [] h).cps = 0.5 ∧
    (App.analyzeExchange p [] h).css = 0.5 ∧
    (App.analyzeExchange p [] h).am = 1 ∧
    (App.analyzeExchange p [] h).uip = UIP.precision_seeker ∧
    (App.analyzeExchange p [] h).confidence = 0.5 ∧
    (App.analyzeExchange p [] h).ri =
      0.25 * IAI.iaiScore p + 0.15 * 0.5 + 0.10 * 0.5 + 0.10 * 0.5 ∧
    (App.analyzeExchange p [] h).history = h := by
  have hr : ¬(([] : List Char) ≠ []) := by simp
  have hrp : ¬((([] : List Char) ≠ []) ∧ p ≠ []) := by simp
  refine ⟨?_, ?_, ?_, ?_, ?_, ?_, ?_, ?_, ?_, ?_⟩
  · show (if ([] : List Char) ≠ [] then CAI.caiScore [] else 0.0) = 0
    rw [if_neg hr]; norm_num
  · show (if ([] : List Char) ≠ [] then PAS.pasScore [] else 0.0) = 0
    rw [if_neg hr]; norm_num
  · show (if (([] : List Char) ≠ []) ∧ p ≠ [] then SAS.sasScore p [] else 0.5) = 0.5
    rw [if_neg hrp]
  · show (if (([] : List Char) ≠ []) ∧ p ≠ [] then CPS.cpsScore p [] h else 0.5) = 0.5
    rw [if_neg hrp]
  · show (if (([] : List Char) ≠ []) ∧ p ≠ [] then
        CSS.cssScore p [] (wordCountL []) (wordCountL p) else 0.5) = 0.5
    rw [if_neg hrp]
  · show (if (([] : List Char) ≠ []) ∧ p ≠ [] then AM.amScore p [] else 1.0) = 1
    rw [if_neg hrp]; norm_num
  · show (if (([] : List Char) ≠ []) ∧ p ≠ [] then AM.detectUip p
        else UIP.precision_seeker) = UIP.precision_seeker
    rw [if_neg hrp]
  · show (if (([] : List Char) ≠ []) ∧ p ≠ [] then AM.uipConfidence p else 0.5) = 0.5
    rw [if_neg hrp]
  · show App.riFormula (IAI.iaiScore p)
        (if ([] : List Char) ≠ [] then CAI.caiScore [] else 0.0)
        (if ([] : List Char) ≠ [] then PAS.pasScore [] else 0.0)
        (if (([] : List Char) ≠ []) ∧ p ≠ [] then SAS.sasScore p [] else 0.5)
        (if (([] : List Char) ≠ []) ∧ p ≠ [] then CPS.cpsScore p [] h else 0.5)
        (if (([] : List Char) ≠ []) ∧ p ≠ [] then
          CSS.cssScore p [] (wordCountL []) (wordCountL p) else 0.5)
        (if (([] : List Char) ≠ []) ∧ p ≠ [] then AM.amScore p [] else 1.0) =
      0.25 * IAI.iaiScore p + 0.15 * 0.5 + 0.10 * 0.5 + 0.10 * 0.5
    rw [if_neg hr, if_neg hr, if_neg hrp, if_neg hrp, if_neg hrp, if_neg hrp]
    unfold App.riFormula
    ring
  · show (if (([] : List Char) ≠ []) ∧ p ≠ [] then
        App.pushTurn h ⟨p, [], CPS.achievedLevel p [] h⟩ else h) = h
    rw [if_neg hrp]

/-- C4: the history window is extended only on a full exchange, the
update keeps the window within ten entries, a full exchange appends
through the push operation, and eleven pushes starting from an empty
window leave exactly the ten most recent turns in order, the oldest
gone. -/
theorem c4_window_invariants (p r : List Char) (h : List Turn) (ts : List Turn) :
    (h.length ≤ 10 → (App.analyzeExchange p r h).history.length ≤ 10) ∧
    (r = [] → (App.analyzeExchange p r h).history = h) ∧
    (r ≠ [] → p ≠ [] →
      (App.analyzeExchange p r h).history = App.pushTurn h ⟨p, r, CPS.achievedLevel p r h⟩) ∧
    (ts.length = 11 → List.foldl App.pushTurn [] ts = ts.drop 1) := by
  have hfield : (App.analyzeExchange p r h).history =
      (if r ≠ [] ∧ p ≠ [] then App.pushTurn h ⟨p, r, CPS.achievedLevel p r h⟩ else h) := rfl
  refine ⟨?_, ?_, ?_, ?_⟩
  · intro hlen
    rw [hfield]
    split_ifs with hc
    · exact App.pushTurn_length_le h _
    · exact hlen
  · intro hre
    rw [hfield, if_neg (by simp [hre])]
  · intro hr hp
    rw [hfield, if_pos ⟨hr, hp⟩]
  · intro h11
    rw [App.foldl_pushTurn ts [] (by simp)]
    unfold App.lastN
    simp only [List.nil_append]
    rw [h11]

/-- C4 witness: a concrete update keeps the bound and eleven concrete
pushes leave the ten newest turns. -/
theorem c4_window_invariants_witness :
    (([] : List Turn).length ≤ 10) ∧
    (App.analyzeExchange (strL "a") (strL "b") []).history.length ≤ 10 ∧
    (List.replicate 11 (⟨[], [], 1⟩ : Turn)).length = 11 ∧
    List.foldl App.pushTurn [] (List.replicate 11 (⟨[], [], 1⟩ : Turn)) =
      (List.replicate 11 (⟨[], [], 1⟩ : Turn)).drop 1 :=
  ⟨by norm_num,
   (c4_window_invariants (strL "a") (strL "b") [] []).1 (by norm_num),
   by simp,
   (c4_window_invariants (strL "a") (strL "b") [] (List.replicate 11 ⟨[], [], 1⟩)).2.2.2
     (by simp)⟩

/-- C5: the anchoring score of every response is the discrete step
function of the total valid anchor count summed over the three
families: zero, a quarter, a half, three quarters, and one from four
anchors on; in particular the score always lies on that five-value
ladder. -/
theorem c5_cai_ladder (r : List Char) :
    CAI.caiScore r = CAI.caiScoreOf (CAI.totalValidAnchors r) ∧
    CAI.caiScoreOf 0 = 0 ∧ CAI.caiScoreOf 1 = 0.25 ∧ CAI.caiScoreOf 2 = 0.5 ∧
    CAI.caiScoreOf 3 = 0.75 ∧ (∀ n : ℕ, 4 ≤ n → CAI.caiScoreOf n = 1) ∧
    (CAI.caiScore r = 0 ∨ CAI.caiScore r = 0.25 ∨ CAI.caiScore r = 0.5 ∨
     CAI.caiScore r = 0.75 ∨ CAI.caiScore r = 1) := by
  refine ⟨rfl, by norm_num [CAI.caiScoreOf], by norm_num [CAI.caiScoreOf],
    by norm_num [CAI.caiScoreOf], by norm_num [CAI.caiScoreOf], ?_, CAI.caiScoreOf_mem _⟩
  intro n hn
  unfold CAI.caiScoreOf
  rw [if_neg (by omega), if_neg (by omega), if_neg (by omega), if_neg (by omega)]
  norm_num

/-- C5 witness: the tail of the ladder evaluated at a concrete count
beyond three. -/
theorem c5_cai_ladder_witness :
    (4 ≤ 7) ∧ CAI.caiScoreOf 7 = 1 :=
  ⟨by norm_num, (c5_cai_ladder []).2.2.2.2.2.1 7 (by norm_num)⟩

/-- C6: with a non-empty history whose recent ceiling lies strictly
below the base level, the achieved progression level is exactly the
base level plus one, capped at five. -/
theorem c6_progression_bonus (u a : ℕ) (hist : List Turn) (hne : hist ≠ [])
    (hgt : listMaxN ((hist.drop (hist.length - 3)).map Turn.cps_level) < max u a)
    (hu : u ≤ 5) :
    CPS.determineAchievedLevel u a hist = min (max u a + 1) 5 := by
  unfold CPS.determineAchievedLevel
  rw [if_pos hne, if_pos hgt]
  omega

/-- C6 witness: a history of three turns at level two and a base level
of three yield achieved level four and a progression score of four
fifths. -/
theorem c6_progression_bonus_witness :
    (List.replicate 3 (⟨[], [], 2⟩ : Turn) ≠ []) ∧
    (listMaxN (((List.replicate 3 (⟨[], [], 2⟩ : Turn)).drop
      ((List.replicate 3 (⟨[], [], 2⟩ : Turn)).length - 3)).map Turn.cps_level) < max 3 2) ∧
    (3 ≤ 5) ∧
    CPS.determineAchievedLevel 3 2 (List.replicate 3 ⟨[], [], 2⟩) = 4 ∧
    (CPS.determineAchievedLevel 3 2 (List.replicate 3 ⟨[], [], 2⟩) : ℚ) / 5 = 4 / 5 := by
  have hmain := c6_progression_bonus 3 2 (List.replicate 3 ⟨[], [], 2⟩)
    (by decide) (by decide) (by norm_num)
  refine ⟨by decide, by decide, by norm_num, ?_, ?_⟩
  · rw [hmain]
    decide
  · rw [hmain]
    norm_num

/-- C7: on a response matching no level keyword the detected response
level is one, not the documented default of two: the score table is
never empty, so the first-maximum over all-zero counts answers the
first level and the default branch is dead. -/
theorem c7_ai_level_default (r : List Char) :
    CPS.detectAiLevel (strL "zzz") = 1 ∧ CPS.detectAiLevel (strL "zzz") ≠ 2 ∧
    (∀ lv : ℕ, 1 ≤ lv → lv ≤ 5 →
      CPS.levelHits (CPS.aiKeywords lv) (lowerL (strL "zzz")) = 0) ∧
    1 ≤ CPS.detectAiLevel r ∧ CPS.detectAiLevel r ≤ 5 := by
  refine ⟨by decide, by decide, ?_, (CPS.detectAiLevel_bounds r).1, (CPS.detectAiLevel_bounds r).2⟩
  intro lv h1 h5
  interval_cases lv <;> decide

/-- C7 witness: the bound part applied to a concrete response. -/
theorem c7_ai_level_default_witness :
    (1 ≤ 1) ∧ (1 ≤ 5) ∧ CPS.levelHits (CPS.aiKeywords 1) (lowerL (strL "zzz")) = 0 ∧
    1 ≤ CPS.detectAiLevel (strL "hello") :=
  ⟨by norm_num, by norm_num, (c7_ai_level_default (strL "hello")).2.2.1 1 (by norm_num) (by norm_num),
   (c7_ai_level_default (strL "hello")).2.2.2.1⟩

/-- C8 counterexample: the prompt contains the expectation keyword for
a list while the response satisfies no implied expectation, and the
synchronization answer is seven tenths, not the claimed one half. -/
theorem c8_expectation_counterexample :
    isSubstr (strL "list") (lowerL (strL "give me a list")) = true ∧
    SAS.expectationMatches (strL "give me a list") (strL "x") = 0 ∧
    SAS.calcExpectationSync (strL "give me a list") (strL "x") = 0.7 ∧
    SAS.calcExpectationSync (strL "give me a list") (strL "x") ≠ 0.5 := by
  have hm : SAS.expectationMatches (strL "give me a list") (strL "x") = 0 := by decide
  refine ⟨by decide, hm, ?_, ?_⟩
  · unfold SAS.calcExpectationSync
    rw [hm]
    norm_num
  · unfold SAS.calcExpectationSync
    rw [hm]
    norm_num

/-- C8 amended: the expectation synchronization equals the half plus a
fifth per satisfied keyword capped at one only when at least one
keyword was satisfied; whenever the satisfied count is zero, also when
the prompt does contain expectation keywords, the answer is seven
tenths, and in particular it is seven tenths when the prompt contains
no expectation keyword at all. -/
theorem c8_expectation_amended (p r : List Char) :
    (SAS.expectationMatches p r = 0 → SAS.calcExpectationSync p r = 0.7) ∧
    (0 < SAS.expectationMatches p r →
      SAS.calcExpectationSync p r =
        min (0.5 + (SAS.expectationMatches p r : ℚ) * 0.2) 1) ∧
    ((∀ w ∈ SAS.expectationWords, ¬ isSubstr w (lowerL p)) →
      SAS.calcExpectationSync p r = 0.7) := by
  refine ⟨?_, ?_, ?_⟩
  · intro hzero
    unfold SAS.calcExpectationSync
    rw [if_neg (by omega)]
  · intro hpos
    unfold SAS.calcExpectationSync
    rw [if_pos hpos]
  · intro hnone
    have hzero : SAS.expectationMatches p r = 0 := by
      unfold SAS.expectationMatches
      apply List.sum_eq_zero
      intro x hx
      rcases List.mem_map.mp hx with ⟨w, hw, rfl⟩
      unfold SAS.wordContribution
      rw [if_neg (by simpa using hnone w hw)]
    unfold SAS.calcExpectationSync
    rw [if_neg (by omega)]

/-- C8 amended witness: the concrete zero-match exchange evaluates to
seven tenths through the amended statement. -/
theorem c8_expectation_amended_witness :
    SAS.expectationMatches (strL "give me a list") (strL "x") = 0 ∧
    SAS.calcExpectationSync (strL "give me a list") (strL "x") = 0.7 :=
  ⟨by decide, (c8_expectation_amended (strL "give me a list") (strL "x")).1 (by decide)⟩

/-- C9: the resonance formula is strictly increasing in each dimension
score separately, for any multiplier at or above the lower clamp. -/
theorem c9_ri_monotone (x y c1 c2 c3 c4 c5 a : ℚ) (ha : 0.8 ≤ a) (hxy : x < y) :
    App.riFormula x c1 c2 c3 c4 c5 a < App.riFormula y c1 c2 c3 c4 c5 a ∧
    App.riFormula c1 x c2 c3 c4 c5 a < App.riFormula c1 y c2 c3 c4 c5 a ∧
    App.riFormula c1 c2 x c3 c4 c5 a < App.riFormula c1 c2 y c3 c4 c5 a ∧
    App.riFormula c1 c2 c3 x c4 c5 a < App.riFormula c1 c2 c3 y c4 c5 a ∧
    App.riFormula c1 c2 c3 c4 x c5 a < App.riFormula c1 c2 c3 c4 y c5 a ∧
    App.riFormula c1 c2 c3 c4 c5 x a < App.riFormula c1 c2 c3 c4 c5 y a := by
  have ha0 : 0 < a := by linarith
  have hd : 0 < y - x := by linarith
  unfold App.riFormula
  refine ⟨?_, ?_, ?_, ?_, ?_, ?_⟩ <;> nlinarith [mul_pos hd ha0]

/-- C9 witness: raising one score from zero to one at unit multiplier
raises the formula, in every coordinate. -/
theorem c9_ri_monotone_witness :
    ((0.8 : ℚ) ≤ 1) ∧ ((0 : ℚ) < 1) ∧
    App.riFormula 0 0 0 0 0 0 1 < App.riFormula 1 0 0 0 0 0 1 ∧
    App.riFormula 0 0 0 0 0 0 1 < App.riFormula 0 1 0 0 0 0 1 ∧
    App.riFormula 0 0 0 0 0 0 1 < App.riFormula 0 0 1 0 0 0 1 ∧
    App.riFormula 0 0 0 0 0 0 1 < App.riFormula 0 0 0 1 0 0 1 ∧
    App.riFormula 0 0 0 0 0 0 1 < App.riFormula 0 0 0 0 1 0 1 ∧
    App.riFormula 0 0 0 0 0 0 1 < App.riFormula 0 0 0 0 0 1 1 := by
  have h := c9_ri_monotone 0 1 0 0 0 0 0 1 (by norm_num) (by norm_num)
  exact ⟨by norm_num, by norm_num, h.1, h.2.1, h.2.2.1, h.2.2.2.1, h.2.2.2.2.1, h.2.2.2.2.2⟩

theorem analyzeAiStyle_bounds (r : List Char) :
    0 ≤ (AM.analyzeAiStyle r).concise ∧ (AM.analyzeAiStyle r).concise ≤ 0.5 ∧
    0 ≤ (AM.analyzeAiStyle r).structured ∧ (AM.analyzeAiStyle r).structured ≤ 1 ∧
    0 ≤ (AM.analyzeAiStyle r).interactive ∧ (AM.analyzeAiStyle r).interactive ≤ 0.9 ∧
    0 ≤ (AM.analyzeAiStyle r).framework ∧ (AM.analyzeAiStyle r).framework ≤ 1 := by
  unfold AM.analyzeAiStyle
  dsimp only
  refine ⟨?_, ?_, ?_, ?_, ?_, ?_, ?_, ?_⟩
  · split_ifs <;> exact le_min (by norm_num) (by norm_num)
  · split_ifs <;> exact le_trans (min_le_left _ _) (by norm_num)
  · exact le_min (by positivity) (by norm_num)
  · exact min_le_right _ _
  · exact le_min (by positivity) (by norm_num)
  · refine le_trans (min_le_left _ _) ?_
    have hk : AM.boolCount [isSubstr (strL "?") (lowerL r),
        isSubstr (strL "your input") (lowerL r),
        isSubstr (strL "collaborate") (lowerL r)] ≤ 3 := by
      unfold AM.boolCount
      exact le_trans (List.countP_le_length _) (by norm_num)
    have hkq : (AM.boolCount [isSubstr (strL "?") (lowerL r),
        isSubstr (strL "your input") (lowerL r),
        isSubstr (strL "collaborate") (lowerL r)] : ℚ) ≤ 3 := by exact_mod_cast hk
    nlinarith
  · exact le_min (by positivity) (by norm_num)
  · exact min_le_right _ _

theorem preferred_sum_precision (st : AM.StyleScores) :
    ((AM.preferredStyles UIP.precision_seeker).map (AM.styleGet st)).sum =
      st.concise + (st.structured + (0 + (0 + 0))) := rfl

theorem preferred_sum_strategic (st : AM.StyleScores) :
    ((AM.preferredStyles UIP.strategic_explorer).map (AM.styleGet st)).sum =
      st.framework + (0 + (st.structured + (0 + 0))) := rfl

theorem preferred_sum_co (st : AM.StyleScores) :
    ((AM.preferredStyles UIP.co_creation_partner).map (AM.styleGet st)).sum =
      st.interactive + (0 + (0 + (0 + 0))) := rfl

theorem styleMatch_precision_le (r : List Char) :
    AM.styleMatchOf UIP.precision_seeker (AM.analyzeAiStyle r) ≤ 3 / 8 := by
  obtain ⟨hc0, hc, hs0, hs, _, _, _, _⟩ := analyzeAiStyle_bounds r
  unfold AM.styleMatchOf
  rw [preferred_sum_precision]
  refine le_trans (min_le_left _ _) ?_
  have hlen : ((AM.preferredStyles UIP.precision_seeker).length : ℚ) = 4 := by
    norm_num [AM.preferredStyles]
  rw [hlen]
  linarith

theorem styleMatch_strategic_le (r : List Char) :
    AM.styleMatchOf UIP.strategic_explorer (AM.analyzeAiStyle r) ≤ 1 / 2 := by
  obtain ⟨_, _, hs0, hs, _, _, hf0, hf⟩ := analyzeAiStyle_bounds r
  unfold AM.styleMatchOf
  rw [preferred_sum_strategic]
  refine le_trans (min_le_left _ _) ?_
  have hlen : ((AM.preferredStyles UIP.strategic_explorer).length : ℚ) = 4 := by
    norm_num [AM.preferredStyles]
  rw [hlen]
  linarith

theorem styleMatch_co_le (r : List Char) :
    AM.styleMatchOf UIP.co_creation_partner (AM.analyzeAiStyle r) ≤ 9 / 40 := by
  obtain ⟨_, _, _, _, hi0, hi, _, _⟩ := analyzeAiStyle_bounds r
  unfold AM.styleMatchOf
  rw [preferred_sum_co]
  refine le_trans (min_le_left _ _) ?_
  have hlen : ((AM.preferredStyles UIP.co_creation_partner).length : ℚ) = 4 := by
    norm_num [AM.preferredStyles]
  rw [hlen]
  linarith

theorem amBase_le_of_lt_04 (sm : ℚ) (h : sm < 0.4) : AM.amBase sm ≤ 0.9 := by
  unfold AM.amBase
  split_ifs <;> linarith

theorem amBase_le_of_lt_06 (sm : ℚ) (h : sm < 0.6) : AM.amBase sm ≤ 1 := by
  unfold AM.amBase
  split_ifs <;> linarith

theorem calcAm_precision_le (st : AM.StyleScores) (wc : ℕ)
    (hsm : AM.styleMatchOf UIP.precision_seeker st < 0.4) :
    AM.calcAm UIP.precision_seeker st wc ≤ 0.9 := by
  unfold AM.calcAm
  refine max_le (by norm_num) (le_trans (min_le_left _ _) ?_)
  have hb := amBase_le_of_lt_04 _ hsm
  have hadj2 : (if UIP.precision_seeker = UIP.co_creation_partner ∧ 0.5 < st.interactive
      then (0.1 : ℚ) else 0) = 0 := by
    rw [if_neg]
    rintro ⟨hcontra, -⟩
    exact UIP.noConfusion hcontra
  rw [hadj2]
  have hadj1 : (if UIP.precision_seeker = UIP.precision_seeker ∧ 300 < wc
      then (-0.1 : ℚ) else 0) ≤ 0 := by split_ifs <;> norm_num
  linarith

theorem calcAm_strategic_le (st : AM.StyleScores) (wc : ℕ)
    (hsm : AM.styleMatchOf UIP.strategic_explorer st < 0.6) :
    AM.calcAm UIP.strategic_explorer st wc ≤ 1 := by
  unfold AM.calcAm
  refine max_le (by norm_num) (le_trans (min_le_left _ _) ?_)
  have hb := amBase_le_of_lt_06 _ hsm
  have hadj1 : (if UIP.strategic_explorer = UIP.precision_seeker ∧ 300 < wc
      then (-0.1 : ℚ) else 0) = 0 := by
    rw [if_neg]
    rintro ⟨hcontra, -⟩
    exact UIP.noConfusion hcontra
  have hadj2 : (if UIP.strategic_explorer = UIP.co_creation_partner ∧ 0.5 < st.interactive
      then (0.1 : ℚ) else 0) = 0 := by
    rw [if_neg]
    rintro ⟨hcontra, -⟩
    exact UIP.noConfusion hcontra
  rw [hadj1, hadj2]
  linarith

theorem calcAm_co_le (st : AM.StyleScores) (wc : ℕ)
    (hsm : AM.styleMatchOf UIP.co_creation_partner st < 0.4) :
    AM.calcAm UIP.co_creation_partner st wc ≤ 1 := by
  unfold AM.calcAm
  refine max_le (by norm_num) (le_trans (min_le_left _ _) ?_)
  have hb := amBase_le_of_lt_04 _ hsm
  have hadj1 : (if UIP.co_creation_partner = UIP.precision_seeker ∧ 300 < wc
      then (-0.1 : ℚ) else 0) = 0 := by
    rw [if_neg]
    rintro ⟨hcontra, -⟩
    exact UIP.noConfusion hcontra
  have hadj2 : (if UIP.co_creation_partner = UIP.co_creation_partner ∧ 0.5 < st.interactive
      then (0.1 : ℚ) else 0) ≤ 0.1 := by split_ifs <;> norm_num
  rw [hadj1]
  linarith

/-- C10: the alignment multiplier never exceeds one, because every
intent prefers two styles the response analysis cannot detect, keeping
the averaged style match strictly below the three fifths needed for
the higher tiers; for the precision-seeker intent it never exceeds
nine tenths. -/
theorem c10_am_capped (p r : List Char) :
    AM.amScore p r ≤ 1 ∧
    AM.styleMatchOf (AM.detectUip p) (AM.analyzeAiStyle r) < 0.6 ∧
    (AM.detectUip p = UIP.precision_seeker → AM.amScore p r ≤ 0.9) := by
  unfold AM.amScore
  cases hu : AM.detectUip p
  case precision_seeker =>
    have hsm := styleMatch_precision_le r
    refine ⟨le_trans (calcAm_precision_le _ _ (by linarith)) (by norm_num), by linarith, ?_⟩
    intro _
    exact calcAm_precision_le _ _ (by linarith)
  case strategic_explorer =>
    have hsm := styleMatch_strategic_le r
    refine ⟨calcAm_strategic_le _ _ (by linarith), by linarith, ?_⟩
    intro hcontra
    exact absurd hcontra (by simp)
  case co_creation_partner =>
    have hsm := styleMatch_co_le r
    refine ⟨calcAm_co_le _ _ (by linarith), by linarith, ?_⟩
    intro hcontra
    exact absurd hcontra (by simp)

/-- C10 witness: the empty prompt detects the precision-seeker default
and the cap applies at a concrete exchange. -/
theorem c10_am_capped_witness :
    AM.detectUip [] = UIP.precision_seeker ∧
    AM.amScore [] [] ≤ 1 ∧ AM.amScore [] [] ≤ 0.9 :=
  ⟨by decide, (c10_am_capped [] []).1, (c10_am_capped [] []).2.2 (by decide)⟩
